import Mathlib

/-!
# Verification of the RDLT → Petri-net conversion tool

Shallow embedding of the core of the `rdlt2pn` tool: the PN model
(`src/models/pnModel.js`), the behavioural analyser
(`src/modules/behavioralAnalysis.js`), the RDLT model
(`src/models/rdltModel.js`), the structural mapper
(`src/utils/strategy.js`, `src/modules/mapper.js`), the eRU part of the
preprocessor (`src/modules/preprocessor.js`), and the conversion facade
(`src/modules/conversionFacade.js`).

JS numbers are embedded as `Int` (token counts can go negative through
subtraction), JS dictionaries as insertion-ordered association lists with
replace-on-assign, JS `Set`s as insertion-ordered duplicate-free lists and
markings as total functions `String → Int`.  Loops whose termination is not
structural carry an explicit fuel that strictly dominates the number of
iterations the JS code can perform on the given data.
-/

namespace RDLT2PN

/-- The apostrophe character `'` used by RBS (level-2) identifiers. -/
def apos : Char := Char.ofNat 39

/-- JS `id.includes("'")` for the single-character needle. -/
def hasApos (s : String) : Bool := s.data.any (· == apos)

/-- JS `id.replace(/'/g, "")`. -/
def stripApos (s : String) : String := ⟨s.data.filter (· ≠ apos)⟩

/-- `formatPNId(prefix, id, suffix)` of `strategy.js`: if the id contains an
apostrophe the node belongs to an RBS and the apostrophe is moved right
after the prefix. -/
def formatPNId (pre id suf : String) : String :=
  if hasApos id then pre ++ String.singleton apos ++ stripApos id ++ suf
  else pre ++ id ++ suf

/-- Arc `type` field of a PN arc. -/
inductive ArcType
  | normal
  | reset
  | abstract
deriving DecidableEq, Repr

/-- A PN place (an entry of `pnModel.places`): id, token count and the role
flags that the mapper sets.  `auxiliary` is the flag the simulator's
conflict grouping consults. -/
structure Place where
  id : String
  tokens : Int := 0
  label : String := ""
  auxiliary : Bool := false
  splitPlace : Bool := false
  checkedPlace : Bool := false
  traversedPlace : Bool := false
  unconstrainedPlace : Bool := false
  consensusPlace : Bool := false
  globalSink : Bool := false
  globalSource : Bool := false
  mixJoinPlace : Bool := false
  resetTarget : Option String := none
  rbsGroup : Option String := none
deriving DecidableEq, Repr

/-- A PN transition (an entry of `pnModel.transitions`). -/
structure Transition where
  id : String
  label : String := ""
  checkTransition : Bool := false
  traverseTransition : Bool := false
  resetTransition : Bool := false
  activities : Option String := none
deriving DecidableEq, Repr

/-- A PN arc.  `from'`/`to'` mirror the JS `from`/`to` fields; `C` and
`weight` are optional exactly as in the JS objects. -/
structure Arc where
  from' : String
  to' : String
  type : ArcType := .normal
  C : Option String := none
  weight : Option Int := none
deriving DecidableEq, Repr

/-- A constraint alias value.  `getShortConstraint` normally produces a
string, but `_nextFallback` evaluates `undefined + NaN`, which in JS is the
number `NaN`. -/
inductive SCVal
  | str (s : String)
  | nan
deriving DecidableEq, Repr

/-- The private counter `this.__nextCounter` used by `_nextFallback`.  The
constructor initialises `__nextConstraintId` but never `__nextCounter`, so
it starts out `undefined`; `undefined++` stores `NaN` and `NaN++` keeps
`NaN`. -/
inductive JsCounter
  | undef
  | nan
  | num (n : Int)
deriving DecidableEq, Repr

/-- `counter++` on the JS counter (the post-increment's stored value). -/
def JsCounter.incr : JsCounter → JsCounter
  | .undef => .nan
  | .nan => .nan
  | .num n => .num (n + 1)

/-- The `PNModel` class state: dictionaries of places and transitions (as
insertion-ordered lists with unique ids), the arcs array, and the
constraint-alias registry. -/
structure PNModel where
  places : List Place := []
  transitions : List Transition := []
  arcs : List Arc := []
  vertexLabelMap : List (String × String) := []
  constraintMap : List (String × SCVal) := []
  nextCounter : JsCounter := .undef
deriving Repr

/-- Dictionary assignment `dict[k] = v`: replace in place if the key exists,
else append (JS objects keep the original insertion position on
re-assignment). -/
def setEntry (p : Place) : List Place → List Place
  | [] => [p]
  | q :: rest => if q.id == p.id then p :: rest else q :: setEntry p rest

/-- Dictionary assignment for the transition dictionary. -/
def setTrans (t : Transition) : List Transition → List Transition
  | [] => [t]
  | q :: rest => if q.id == t.id then t :: rest else q :: setTrans t rest

/-- Dictionary assignment for string-valued maps. -/
def setStr (k v : String) : List (String × String) → List (String × String)
  | [] => [(k, v)]
  | q :: rest => if q.1 == k then (k, v) :: rest else q :: setStr k v rest

/-- Dictionary assignment for the constraint map. -/
def setSC (k : String) (v : SCVal) : List (String × SCVal) → List (String × SCVal)
  | [] => [(k, v)]
  | q :: rest => if q.1 == k then (k, v) :: rest else q :: setSC k v rest

/-- Association-list lookup (JS `dict[k]`, `undefined` becomes `none`). -/
def getSC (cm : List (String × SCVal)) (k : String) : Option SCVal :=
  (cm.find? (·.1 == k)).map (·.2)

/-- `pnModel.addPlace(place)`. -/
def PNModel.addPlace (pn : PNModel) (p : Place) : PNModel :=
  { pn with places := setEntry p pn.places }

/-- `pnModel.addTransition(transition)`. -/
def PNModel.addTransition (pn : PNModel) (t : Transition) : PNModel :=
  { pn with transitions := setTrans t pn.transitions }

/-- `pnModel.addArc(arc)` (the incoming/outgoing adjacency lists that the JS
code maintains are recovered by filtering `arcs`, see `incomingOf`). -/
def PNModel.addArc (pn : PNModel) (a : Arc) : PNModel :=
  { pn with arcs := pn.arcs ++ [a] }

/-- Truthiness test `pnModel.places[id]`. -/
def PNModel.hasPlaceId (pn : PNModel) (id : String) : Bool :=
  pn.places.any (·.id == id)

/-- `pnModel.places[id]` as an optional value. -/
def PNModel.findPlace? (pn : PNModel) (id : String) : Option Place :=
  pn.places.find? (·.id == id)

/-- Truthiness test `pnModel.transitions[id]`. -/
def PNModel.hasTransId (pn : PNModel) (id : String) : Bool :=
  pn.transitions.any (·.id == id)

/-- `transition.incoming` / `place.incoming`: the arcs whose `to` is the
node.  `addArc`/`removeArc` keep the JS adjacency lists equal to this
filter; the only divergence is step 5's in-place `.to` mutation, which
leaves a stale entry in a transition's `incoming` whose `from` is a
transition — an entry every simulator guard (`pnModel.places[arc.from]`)
ignores, so the filter is observationally equivalent. -/
def PNModel.incomingOf (pn : PNModel) (id : String) : List Arc :=
  pn.arcs.filter (·.to' == id)

/-- `transition.outgoing` / `place.outgoing` recovered from the arcs array. -/
def PNModel.outgoingOf (pn : PNModel) (id : String) : List Arc :=
  pn.arcs.filter (·.from' == id)

/-- `this._usedShorts()`: the set of alias values already assigned. -/
def usedShorts (cm : List (String × SCVal)) : List SCVal := cm.map (·.2)

/-- `this._nextUnusedLetter()`: first free letter among `a`…`z`. -/
def nextUnusedLetter (cm : List (String × SCVal)) : Option String :=
  (List.range 26).findSome? (fun i =>
    let letter := String.singleton (Char.ofNat (97 + i))
    if (usedShorts cm).contains (SCVal.str letter) then none else some letter)

/-- One candidate of `_nextFallback`'s `while (true)` body: read
`this.__nextCounter++` and build `letter + suffix`.  When the counter is
`undefined` or `NaN` the letter is `undefined` and the suffix `NaN`, and
`undefined + NaN` evaluates to the number `NaN`. -/
def fallbackCandidate : JsCounter → SCVal
  | .undef => .nan
  | .nan => .nan
  | .num n =>
      let i := n.toNat
      let letter := String.singleton (Char.ofNat (97 + i % 26))
      let suf := i / 26
      .str (if suf == 0 then letter else letter ++ toString suf)

/-- `this._nextFallback()` with fuel for the `while (true)` loop (the JS
loop does not terminate when every candidate is already used, which happens
on the 28th distinct constraint; fuel exhaustion returns the last
candidate). -/
def nextFallback (cm : List (String × SCVal)) : JsCounter → Nat → SCVal × JsCounter
  | c, 0 => (fallbackCandidate c, c.incr)
  | c, fuel + 1 =>
      let candidate := fallbackCandidate c
      let c' := c.incr
      if (usedShorts cm).contains candidate then nextFallback cm c' fuel
      else (candidate, c')

/-- JS truthiness of a stored alias (`if (this.constraintMap[orig]) …`):
`NaN` and the empty string are falsy. -/
def SCVal.truthy : SCVal → Bool
  | .nan => false
  | .str s => !(s == "")

/-- `orig.toLowerCase()` over the character list (the iterator-based
`String.toLower` does not reduce inside the kernel). -/
def strToLower (s : String) : String := ⟨s.data.map Char.toLower⟩

/-- The regex test `/^[A-Za-z]$/.test(orig)`. -/
def isSingleLetter (s : String) : Bool :=
  s.length == 1 && s.data.all (fun c => c.isUpper || c.isLower)

/-- `pnModel.getShortConstraint(orig)` (pnModel.js): reuse a stored alias,
else lowercase a free single letter, else the next unused letter of
`a`…`z`, else `_nextFallback()`. -/
def PNModel.getShortConstraint (pn : PNModel) (orig : String) : SCVal × PNModel :=
  match getSC pn.constraintMap orig with
  | some v =>
      if v.truthy then (v, pn)
      else PNModel.getShortConstraintCompute pn orig
  | none => PNModel.getShortConstraintCompute pn orig
where
  /-- The body after the memoisation check. -/
  PNModel.getShortConstraintCompute (pn : PNModel) (orig : String) :
      SCVal × PNModel :=
    let used := usedShorts pn.constraintMap
    let short0 : Option String :=
      if isSingleLetter orig then
        let candidate := strToLower orig
        if used.contains (.str candidate) then none else some candidate
      else none
    match short0 with
    | some s =>
        (SCVal.str s, { pn with constraintMap := setSC orig (.str s) pn.constraintMap })
    | none =>
        match nextUnusedLetter pn.constraintMap with
        | some s =>
            (SCVal.str s,
             { pn with constraintMap := setSC orig (.str s) pn.constraintMap })
        | none =>
            let (v, c') := nextFallback pn.constraintMap pn.nextCounter
              (pn.constraintMap.length + 30)
            (v, { pn with constraintMap := setSC orig v pn.constraintMap,
                          nextCounter := c' })

/-- String rendering of an alias in a template literal (`NaN` prints as
`"NaN"`). -/
def SCVal.show : SCVal → String
  | .str s => s
  | .nan => "NaN"

/-! ## Behavioural analyser (`behavioralAnalysis.js`) -/

/-- A marking: total map from place id to token count (JS object whose keys
are exactly the place ids; other keys are never read by a guarded access). -/
def Mk : Type := String → Int

/-- Marking update `marking[k] = v`. -/
def updMk (m : Mk) (k : String) (v : Int) : Mk :=
  fun x => if x == k then v else m x

/-- `arc.weight || 1`: `undefined`, `0` and `NaN` all fall back to `1`. -/
def effW : Option Int → Int
  | none => 1
  | some w => if w == 0 then 1 else w

/-- `getInitialMarking(pnModel)`. -/
def getInitialMarking (pn : PNModel) : Mk :=
  fun pid =>
    match pn.places.find? (·.id == pid) with
    | some p => p.tokens
    | none => 0

/-- `getEnabledTransitions(pnModel, marking)`: a transition is enabled iff no
normal incoming arc from an existing place lacks tokens; reset arcs never
gate. -/
def getEnabledTransitions (pn : PNModel) (m : Mk) : List Transition :=
  pn.transitions.filter (fun t =>
    (pn.incomingOf t.id).all (fun a =>
      !(pn.hasPlaceId a.from' && a.type == ArcType.normal &&
        decide (m a.from' < effW a.weight))))

/-- `fireTransition(pnModel, transition, marking)`: subtract over the normal
incoming arcs, then clear the sources of the reset incoming arcs, then add
over the normal outgoing arcs — all three phases for this one transition. -/
def fireTransition (pn : PNModel) (t : Transition) (m : Mk) : Mk :=
  let ins := pn.incomingOf t.id
  let outs := pn.outgoingOf t.id
  let m1 := (ins.filter (fun a => a.type == ArcType.normal && pn.hasPlaceId a.from')).foldl
    (fun mk a => updMk mk a.from' (mk a.from' - effW a.weight)) m
  let m2 := (ins.filter (fun a => a.type == ArcType.reset && pn.hasPlaceId a.from')).foldl
    (fun mk a => updMk mk a.from' 0) m1
  (outs.filter (fun a => a.type == ArcType.normal && pn.hasPlaceId a.to')).foldl
    (fun mk a => updMk mk a.to' (mk a.to' + effW a.weight)) m2

/-- One recorded simulation step. -/
structure Step where
  marking : Mk
  firedTransitions : List String
  enabledTransitions : Option (List String) := none
  log : String := ""

/-- The retrofit `sequence[sequence.length - 1].enabledTransitions = ids`. -/
def setLastEnabled (ids : List String) : List Step → List Step
  | [] => []
  | [s] => [{ s with enabledTransitions := some ids }]
  | s :: rest => s :: setLastEnabled ids rest

/-- `place.auxiliary` truthiness for the conflict grouping. -/
def PNModel.isAuxPlace (pn : PNModel) (id : String) : Bool :=
  match pn.findPlace? id with
  | some p => p.auxiliary
  | none => false

/-- The normal incoming arcs of a transition from existing non-auxiliary
places (the arcs that drive conflict grouping). -/
def normalIncomingOf (pn : PNModel) (t : Transition) : List Arc :=
  (pn.incomingOf t.id).filter (fun a =>
    a.type == ArcType.normal && pn.hasPlaceId a.from' && !(pn.isAuxPlace a.from'))

/-- Append a transition to the group of `key`, creating the group at the end
of the dictionary if missing.  `dedup` is the membership check performed for
place-keyed groups (the `__no_normal__` group pushes unconditionally). -/
def pushGroup (key : String) (t : Transition) (dedup : Bool) :
    List (String × List Transition) → List (String × List Transition)
  | [] => [(key, [t])]
  | (k, ts) :: rest =>
      if k == key then
        (k, if dedup && ts.any (·.id == t.id) then ts else ts ++ [t]) :: rest
      else (k, ts) :: pushGroup key t dedup rest

/-- `normalIncomingGroups`: partition the enabled transitions by the source
places of their non-auxiliary normal incoming arcs; transitions without such
an arc form the `__no_normal__` group. -/
def buildGroups (pn : PNModel) (enabled : List Transition) :
    List (String × List Transition) :=
  enabled.foldl (fun gs t =>
    let ni := normalIncomingOf pn t
    if ni.isEmpty then pushGroup "__no_normal__" t false gs
    else ni.foldl (fun gs a => pushGroup a.from' t true gs) gs) []

/-- Lexicographic comparison of character lists by unicode code point. -/
def charsLe : List Char → List Char → Bool
  | [], _ => true
  | _ :: _, [] => false
  | a :: as, b :: bs =>
      if a.toNat < b.toNat then true
      else if a.toNat > b.toNat then false
      else charsLe as bs

/-- String comparison of JS `Array.prototype.sort()` (UTF-16 code units;
for the basic-multilingual-plane identifiers in play this coincides with
code-point order). -/
def strLe (a b : String) : Bool := charsLe a.data b.data

/-- Insertion sort of the group keys (JS `Object.keys(...).sort()`; the keys
are pairwise distinct so stability is irrelevant). -/
def insertSorted (k : String) : List String → List String
  | [] => [k]
  | x :: xs => if strLe k x then k :: x :: xs else x :: insertSorted k xs

/-- Sort a list of keys. -/
def sortKeys : List String → List String
  | [] => []
  | x :: xs => insertSorted x (sortKeys xs)

/-- The deduplication pass over the sorted group keys: each transition stays
only in the first (sorted) group containing it. -/
def dedupGroups (gs : List (String × List Transition)) :
    List String → List String → List (String × List Transition)
  | _, [] => []
  | processed, key :: keys =>
      let ts := ((gs.find? (·.1 == key)).map (·.2)).getD []
      let ts := ts.filter (fun t => !processed.contains t.id)
      if ts.isEmpty then dedupGroups gs processed keys
      else (key, ts) :: dedupGroups gs (processed ++ ts.map (·.id)) keys

/-- `uniqueGroups` of `simulateRec`: groups in sorted key order with
duplicates across groups removed. -/
def uniqueGroups (pn : PNModel) (enabled : List Transition) :
    List (String × List Transition) :=
  let gs := buildGroups pn enabled
  dedupGroups gs [] (sortKeys (gs.map (·.1)))

/-- `cartesianProduct(arrays)` exactly as the inner helper computes it. -/
def cartesianProduct : List (List Transition) → List (List Transition)
  | [] => [[]]
  | arrays =>
      arrays.foldl
        (fun acc curr => acc.flatMap (fun a => curr.map (fun b => a ++ [b]))) [[]]

/-- The final step recorded when no transition is enabled (or the step bound
is reached). -/
def finalStep (m : Mk) (enabledIds : List String) (steps : Nat) : Step :=
  { marking := m, firedTransitions := [],
    enabledTransitions := some enabledIds,
    log := "Step " ++ toString (steps + 1) ++ ": No transitions enabled." }

/-- `simulateRec(pnModel, marking, sequence, steps, maxSteps)`.  The JS
recursion stops when `steps >= maxSteps`; `fuel` is `maxSteps - steps`, so
`fuel = 0` is exactly that bound.  Each branch clones the marking, fires the
unique transitions together with its pick from every split group one
transition at a time, records the step and recurses. -/
def simulateRec (pn : PNModel) : Nat → Mk → List Step → Nat → List (List Step)
  | 0, m, seq, steps =>
    let enabled := getEnabledTransitions pn m
    let enabledIds := enabled.map (·.id)
    [setLastEnabled enabledIds seq ++ [finalStep m enabledIds steps]]
  | fuel + 1, m, seq, steps =>
    let enabled := getEnabledTransitions pn m
    let enabledIds := enabled.map (·.id)
    let seq := setLastEnabled enabledIds seq
    if enabled.isEmpty then [seq ++ [finalStep m enabledIds steps]]
    else
      let ugs := uniqueGroups pn enabled
      let uniqueTransitions := (ugs.filter (fun g => g.2.length == 1)).flatMap (·.2)
      let splitGroups := ugs.filter (fun g => g.2.length ≥ 2)
      let splitChoices := cartesianProduct (splitGroups.map (·.2))
      let combinations := if splitChoices.length > 0 then splitChoices else [[]]
      combinations.flatMap (fun choice =>
        let transitionsToFire := uniqueTransitions ++ choice
        let branchMarking :=
          transitionsToFire.foldl (fun mk t => fireTransition pn t mk) m
        let firedTransitionIds := transitionsToFire.map (·.id)
        let newStep : Step :=
          { marking := branchMarking, firedTransitions := firedTransitionIds,
            log := "Step " ++ toString (steps + 1) ++ ": Fired transitions " ++
              String.intercalate ", " firedTransitionIds ++ "." }
        simulateRec pn fuel branchMarking (seq ++ [newStep]) (steps + 1))

/-- `simulateBehavior(pnModel, maxSteps)`. -/
def simulateBehavior (pn : PNModel) (maxSteps : Nat := 1000) : List (List Step) :=
  let initialMarking := getInitialMarking pn
  let initialEnabled := (getEnabledTransitions pn initialMarking).map (·.id)
  let initialSequence : List Step :=
    [{ marking := initialMarking, firedTransitions := [],
       enabledTransitions := some initialEnabled, log := "Step 0: Initial marking." }]
  simulateRec pn maxSteps initialMarking initialSequence 0

/-- `getFinalMarking(sequence)` (sequences are never empty). -/
def getFinalMarking (seq : List Step) : Mk :=
  match seq.getLast? with
  | some s => s.marking
  | none => fun _ => 0

/-- The sink place `pnModel.places["Po"]` (the classification functions
dereference it unconditionally; on nets without a `Po` place the JS code
throws, so all statements below are about nets that contain it). -/
def sinkId (pn : PNModel) : String :=
  match pn.findPlace? "Po" with
  | some p => p.id
  | none => "Po"

/-- `checkOptionToCompleteForSequence`: the sink holds more than 0 tokens in
the final marking. -/
def checkOptionToCompleteForSequence (pn : PNModel) (seq : List Step) : Bool :=
  decide (getFinalMarking seq (sinkId pn) > 0)

/-- `properTermination` of `checkProperTerminationForSequence`: the sink has
exactly one token and every other place is empty (the violation list is
empty). -/
def properTermination (pn : PNModel) (seq : List Step) : Bool :=
  let fm := getFinalMarking seq
  decide (fm (sinkId pn) = 1) &&
    pn.places.all (fun p => p.id == sinkId pn || decide (fm p.id = 0))

/-- `weakenedProperTermination`: only the sink is checked. -/
def weakenedProperTermination (pn : PNModel) (seq : List Step) : Bool :=
  decide (getFinalMarking seq (sinkId pn) = 1)

/-- The per-sequence termination classes of `behavioralAnalysis`. -/
inductive TermType
  | none
  | proper
  | weak
  | option
deriving DecidableEq, Repr

/-- The per-sequence `terminationType` assignment of `behavioralAnalysis`. -/
def terminationType (pn : PNModel) (seq : List Step) : TermType :=
  if !(checkOptionToCompleteForSequence pn seq) then .none
  else if properTermination pn seq then .proper
  else if weakenedProperTermination pn seq then .weak
  else .option

/-- The sequential firing of a set of transitions as `simulateRec` performs
it: each transition completes its subtract/reset/add phases before the next
one fires. -/
def fireSetSequentially (pn : PNModel) (S : List Transition) (m : Mk) : Mk :=
  S.foldl (fun mk t => fireTransition pn t mk) m

/-- Modelled from the spec (§4.5, "Firing a set `S` of transitions from `M`
yields `M'`"): each of the three phases is completed over the whole set `S`
before the next phase begins — first all subtractions, then all resets,
then all additions.  This definition follows the spec's words and is the
comparison point for claim C1; the source's firing is `fireSetSequentially`. -/
def firePhasedSpec (pn : PNModel) (S : List Transition) (m : Mk) : Mk :=
  let m1 := S.foldl (fun mk t =>
    ((pn.incomingOf t.id).filter (fun a =>
        a.type == ArcType.normal && pn.hasPlaceId a.from')).foldl
      (fun mk a => updMk mk a.from' (mk a.from' - effW a.weight)) mk) m
  let m2 := S.foldl (fun mk t =>
    ((pn.incomingOf t.id).filter (fun a =>
        a.type == ArcType.reset && pn.hasPlaceId a.from')).foldl
      (fun mk a => updMk mk a.from' 0) mk) m1
  S.foldl (fun mk t =>
    ((pn.outgoingOf t.id).filter (fun a =>
        a.type == ArcType.normal && pn.hasPlaceId a.to')).foldl
      (fun mk a => updMk mk a.to' (mk a.to' + effW a.weight)) mk) m2

/-- A default step used by the total list accessors below. -/
def dummyStep : Step := { marking := fun _ => 0, firedTransitions := [] }

/-- The `i`-th sequence of a simulation result. -/
def seqAt (seqs : List (List Step)) (i : Nat) : List Step := seqs.getD i []

/-- The `j`-th step of the `i`-th sequence of a simulation result. -/
def stepAt (seqs : List (List Step)) (i j : Nat) : Step :=
  (seqAt seqs i).getD j dummyStep

/-! ### Claim C1 -/

/-- Counterexample net for C1: `t1` produces into `Pp` while `t2` carries a
reset arc from `Pp`; both are enabled from the initial marking and fall into
singleton groups (`Pa` and `Pb`), so the simulator fires them together in
one step, `t1` first. -/
def pnC1 : PNModel :=
  (((((({} : PNModel).addPlace { id := "Pa", tokens := 1 }).addPlace
      { id := "Pb", tokens := 1 }).addPlace
      { id := "Pp", tokens := 0 }).addTransition
      { id := "t1" }).addTransition { id := "t2" })
    |>.addArc { from' := "Pa", to' := "t1" }
    |>.addArc { from' := "Pb", to' := "t2" }
    |>.addArc { from' := "t1", to' := "Pp" }
    |>.addArc { from' := "Pp", to' := "t2", type := .reset }

/-- C1, counterexample: in the single run of `pnC1` the simulator fires the
set `{t1, t2}` in step 1 and records `Pp = 0` (t1 adds a token, then t2's
reset clears it), while the phase-by-phase computation of the spec yields
`Pp = 1` (the reset happens before any addition).  So the recorded marking
is not the phased marking. -/
theorem C1_counterexample :
    (stepAt (simulateBehavior pnC1 10) 0 1).firedTransitions =
        pnC1.transitions.map (·.id) ∧
    (stepAt (simulateBehavior pnC1 10) 0 1).marking "Pp" = 0 ∧
    firePhasedSpec pnC1 pnC1.transitions (getInitialMarking pnC1) "Pp" = 1 := by
  decide

/-- The tokens a transition's firing subtracts from place `p` (over its
normal incoming arcs from existing places). -/
def subAmount (pn : PNModel) (t : Transition) (p : String) : Int :=
  ((((pn.incomingOf t.id).filter (fun a =>
      a.type == ArcType.normal && pn.hasPlaceId a.from')).filter
      (fun a => a.from' == p)).map (fun a => effW a.weight)).sum

/-- The tokens a transition's firing adds to place `p` (over its normal
outgoing arcs to existing places). -/
def addAmount (pn : PNModel) (t : Transition) (p : String) : Int :=
  ((((pn.outgoingOf t.id).filter (fun a =>
      a.type == ArcType.normal && pn.hasPlaceId a.to')).filter
      (fun a => a.to' == p)).map (fun a => effW a.weight)).sum

lemma updMk_apply (m : Mk) (k : String) (v : Int) (p : String) :
    updMk m k v p = if p = k then v else m p := by
  simp [updMk, beq_iff_eq]

lemma subFold_apply (l : List Arc) (m : Mk) (p : String) :
    (l.foldl (fun mk a => updMk mk a.from' (mk a.from' - effW a.weight)) m) p =
      m p - ((l.filter (fun a => a.from' == p)).map (fun a => effW a.weight)).sum := by
  induction l generalizing m with
  | nil => simp
  | cons a l ih =>
      by_cases h : a.from' = p
      · subst h
        simp only [List.foldl_cons, List.filter_cons, beq_self_eq_true, if_true,
          List.map_cons, List.sum_cons, ih, updMk_apply, if_pos rfl]
        ring
      · have hb : (a.from' == p) = false := by simp [h]
        have hne : ¬(p = a.from') := fun hh => h hh.symm
        simp only [List.foldl_cons, List.filter_cons, hb, Bool.false_eq_true,
          if_false, ih, updMk_apply, if_neg hne]

lemma addFold_apply (l : List Arc) (m : Mk) (p : String) :
    (l.foldl (fun mk a => updMk mk a.to' (mk a.to' + effW a.weight)) m) p =
      m p + ((l.filter (fun a => a.to' == p)).map (fun a => effW a.weight)).sum := by
  induction l generalizing m with
  | nil => simp
  | cons a l ih =>
      by_cases h : a.to' = p
      · subst h
        simp only [List.foldl_cons, List.filter_cons, beq_self_eq_true, if_true,
          List.map_cons, List.sum_cons, ih, updMk_apply, if_pos rfl]
        ring
      · have hb : (a.to' == p) = false := by simp [h]
        have hne : ¬(p = a.to') := fun hh => h hh.symm
        simp only [List.foldl_cons, List.filter_cons, hb, Bool.false_eq_true,
          if_false, ih, updMk_apply, if_neg hne]

/-- A transition with no (effective) reset incoming arc changes place `p` by
`addAmount - subAmount`. -/
lemma fireTransition_apply_noReset (pn : PNModel) (t : Transition) (m : Mk)
    (p : String)
    (h : (pn.incomingOf t.id).filter (fun a =>
        a.type == ArcType.reset && pn.hasPlaceId a.from') = []) :
    fireTransition pn t m p = m p - subAmount pn t p + addAmount pn t p := by
  unfold fireTransition
  simp only [h, List.foldl_nil, addFold_apply, subFold_apply, subAmount, addAmount]

lemma fireSetSequentially_apply (pn : PNModel) (S : List Transition) (m : Mk)
    (p : String)
    (h : ∀ t ∈ S, (pn.incomingOf t.id).filter (fun a =>
        a.type == ArcType.reset && pn.hasPlaceId a.from') = []) :
    fireSetSequentially pn S m p =
      m p - (S.map (fun t => subAmount pn t p)).sum
          + (S.map (fun t => addAmount pn t p)).sum := by
  induction S generalizing m with
  | nil => simp [fireSetSequentially]
  | cons t S ih =>
      have ht := h t (List.mem_cons_self t S)
      have hS : ∀ u ∈ S, (pn.incomingOf u.id).filter (fun a =>
          a.type == ArcType.reset && pn.hasPlaceId a.from') = [] :=
        fun u hu => h u (List.mem_cons_of_mem t hu)
      simp only [fireSetSequentially, List.foldl_cons] at *
      rw [ih _ hS, fireTransition_apply_noReset pn t m p ht]
      simp only [List.map_cons, List.sum_cons]
      ring

lemma phase1_apply (pn : PNModel) (S : List Transition) (m : Mk) (p : String) :
    (S.foldl (fun mk t =>
      ((pn.incomingOf t.id).filter (fun a =>
          a.type == ArcType.normal && pn.hasPlaceId a.from')).foldl
        (fun mk a => updMk mk a.from' (mk a.from' - effW a.weight)) mk) m) p =
      m p - (S.map (fun t => subAmount pn t p)).sum := by
  induction S generalizing m with
  | nil => simp
  | cons t S ih =>
      simp only [List.foldl_cons, List.map_cons, List.sum_cons]
      rw [ih, subFold_apply]
      simp only [subAmount]
      ring

lemma phase3_apply (pn : PNModel) (S : List Transition) (m : Mk) (p : String) :
    (S.foldl (fun mk t =>
      ((pn.outgoingOf t.id).filter (fun a =>
          a.type == ArcType.normal && pn.hasPlaceId a.to')).foldl
        (fun mk a => updMk mk a.to' (mk a.to' + effW a.weight)) mk) m) p =
      m p + (S.map (fun t => addAmount pn t p)).sum := by
  induction S generalizing m with
  | nil => simp
  | cons t S ih =>
      simp only [List.foldl_cons, List.map_cons, List.sum_cons]
      rw [ih, addFold_apply]
      simp only [addAmount]
      ring

lemma phase2_apply_noReset (pn : PNModel) (S : List Transition) (m : Mk)
    (h : ∀ t ∈ S, (pn.incomingOf t.id).filter (fun a =>
        a.type == ArcType.reset && pn.hasPlaceId a.from') = []) :
    (S.foldl (fun mk t =>
      ((pn.incomingOf t.id).filter (fun a =>
          a.type == ArcType.reset && pn.hasPlaceId a.from')).foldl
        (fun mk a => updMk mk a.from' 0) mk) m) = m := by
  induction S generalizing m with
  | nil => simp
  | cons t S ih =>
      have ht := h t (List.mem_cons_self t S)
      simp only [List.foldl_cons, ht, List.foldl_nil]
      exact ih _ (fun u hu => h u (List.mem_cons_of_mem t hu))

/-- C1, amended claim: the simulator fires the transitions of `S` one at a
time, each completing its three phases before the next.  Whenever no fired
transition has an incoming reset arc from an existing place — the situation
the counterexample exploits — the sequential result coincides with the
spec's phase-by-phase description at every place. -/
theorem C1_amended (pn : PNModel) (S : List Transition) (m : Mk) (p : String)
    (h : ∀ t ∈ S, (pn.incomingOf t.id).filter (fun a =>
        a.type == ArcType.reset && pn.hasPlaceId a.from') = []) :
    fireSetSequentially pn S m p = firePhasedSpec pn S m p := by
  rw [fireSetSequentially_apply pn S m p h]
  unfold firePhasedSpec
  rw [phase3_apply, phase2_apply_noReset pn S _ h, phase1_apply]

/-- A reset-free net to instantiate `C1_amended`. -/
def pnC1W : PNModel :=
  ((((({} : PNModel).addPlace { id := "Pa", tokens := 1 }).addPlace
      { id := "Pq", tokens := 0 }).addTransition { id := "t1" })
    |>.addArc { from' := "Pa", to' := "t1" }
    |>.addArc { from' := "t1", to' := "Pq" })

/-- Witness for `C1_amended` at the concrete reset-free net `pnC1W`. -/
theorem C1_amended_witness :
    fireSetSequentially pnC1W pnC1W.transitions (getInitialMarking pnC1W) "Pq" =
      firePhasedSpec pnC1W pnC1W.transitions (getInitialMarking pnC1W) "Pq" :=
  C1_amended pnC1W pnC1W.transitions (getInitialMarking pnC1W) "Pq" (by decide)

/-! ### Claim C2 -/

/-- Counterexample net for C2: `tR` resets `Po` while `tC` consumes from it;
both fire in the first step (`tR` first, group keys `"Pa" < "Po"`), leaving
`Po = -1` in the final marking. -/
def pnC2 : PNModel :=
  ((((({} : PNModel).addPlace { id := "Pa", tokens := 1 }).addPlace
      { id := "Po", tokens := 1, globalSink := true }).addTransition
      { id := "tR" }).addTransition { id := "tC" })
    |>.addArc { from' := "Pa", to' := "tR" }
    |>.addArc { from' := "Po", to' := "tR", type := .reset }
    |>.addArc { from' := "Po", to' := "tC" }

/-- C2, counterexample: `pnC2` contains the global sink `Po`; its unique
simulator run ends with `M[Po] = -1`, yet the sequence is classified `None`.
The claim's biconditional "`None` exactly when `M[o] = 0`" therefore fails
on this net. -/
theorem C2_counterexample :
    pnC2.hasPlaceId "Po" = true ∧
    (simulateBehavior pnC2 10).length = 1 ∧
    terminationType pnC2 (seqAt (simulateBehavior pnC2 10) 0) = TermType.none ∧
    getFinalMarking (seqAt (simulateBehavior pnC2 10) 0) "Po" = -1 := by
  decide

lemma sinkId_eq (pn : PNModel) : sinkId pn = "Po" := by
  unfold sinkId PNModel.findPlace?
  cases h : pn.places.find? (·.id == "Po") with
  | none => rfl
  | some p =>
      have := List.find?_some h
      simpa [beq_iff_eq] using this

lemma allZero_iff (pn : PNModel) (fm : Mk) :
    (pn.places.all (fun p => p.id == "Po" || decide (fm p.id = 0)) = true) ↔
      ∀ p ∈ pn.places, p.id ≠ "Po" → fm p.id = 0 := by
  simp only [List.all_eq_true, Bool.or_eq_true, beq_iff_eq, decide_eq_true_eq]
  constructor
  · intro h p hp hne
    rcases h p hp with h1 | h2
    · exact absurd h1 hne
    · exact h2
  · intro h p hp
    by_cases he : p.id = "Po"
    · exact Or.inl he
    · exact Or.inr (h p hp he)

/-- C2, amended claim: for every net containing the global sink `Po` and
every sequence whose final marking is non-negative at `Po` (the counter-
example produces `-1` there), the classification is exactly the claimed
four-way case split: `None` iff `M[Po] = 0`; `Proper` iff `M[Po] = 1` and
all other places are 0; `Weak` iff `M[Po] = 1` and some other place is
non-zero; `Option` iff `M[Po] ≥ 1` and neither `Proper` nor `Weak` holds. -/
theorem C2_amended (pn : PNModel) (seq : List Step)
    (hPo : pn.hasPlaceId "Po" = true)
    (hnn : 0 ≤ getFinalMarking seq "Po") :
    (terminationType pn seq = TermType.none ↔ getFinalMarking seq "Po" = 0) ∧
    (terminationType pn seq = TermType.proper ↔
      getFinalMarking seq "Po" = 1 ∧
      ∀ p ∈ pn.places, p.id ≠ "Po" → getFinalMarking seq p.id = 0) ∧
    (terminationType pn seq = TermType.weak ↔
      getFinalMarking seq "Po" = 1 ∧
      ¬(∀ p ∈ pn.places, p.id ≠ "Po" → getFinalMarking seq p.id = 0)) ∧
    (terminationType pn seq = TermType.option ↔
      1 ≤ getFinalMarking seq "Po" ∧
      ¬(getFinalMarking seq "Po" = 1 ∧
        ∀ p ∈ pn.places, p.id ≠ "Po" → getFinalMarking seq p.id = 0) ∧
      ¬(getFinalMarking seq "Po" = 1 ∧
        ¬(∀ p ∈ pn.places, p.id ≠ "Po" → getFinalMarking seq p.id = 0))) := by
  have hs := sinkId_eq pn
  set fm := getFinalMarking seq with hfm
  have hcl : terminationType pn seq =
      (if !(decide (fm "Po" > 0)) then TermType.none
       else if (decide (fm "Po" = 1) &&
          pn.places.all (fun p => p.id == "Po" || decide (fm p.id = 0))) then .proper
       else if decide (fm "Po" = 1) then .weak
       else .option) := by
    unfold terminationType checkOptionToCompleteForSequence properTermination
      weakenedProperTermination
    rw [hs, ← hfm]
  by_cases h1 : fm "Po" > 0
  · by_cases h2 : fm "Po" = 1
    · by_cases h3 : ∀ p ∈ pn.places, p.id ≠ "Po" → fm p.id = 0
      · -- Proper
        have hall : pn.places.all (fun p => p.id == "Po" || decide (fm p.id = 0)) = true :=
          (allZero_iff pn fm).mpr h3
        have hval : terminationType pn seq = .proper := by
          rw [hcl]; simp [h1, h2, hall]
        refine ⟨?_, ?_, ?_, ?_⟩
        · exact iff_of_false (by simp [hval]) (by omega)
        · exact iff_of_true (by simp [hval]) ⟨h2, h3⟩
        · exact iff_of_false (by simp [hval]) (fun hc => hc.2 h3)
        · exact iff_of_false (by simp [hval]) (fun hc => hc.2.1 ⟨h2, h3⟩)
      · -- Weak
        have hall : pn.places.all (fun p => p.id == "Po" || decide (fm p.id = 0)) = false := by
          cases hh : pn.places.all (fun p => p.id == "Po" || decide (fm p.id = 0)) with
          | false => rfl
          | true => exact absurd ((allZero_iff pn fm).mp hh) h3
        have hval : terminationType pn seq = .weak := by
          rw [hcl]; simp [h1, h2, hall]
        refine ⟨?_, ?_, ?_, ?_⟩
        · exact iff_of_false (by simp [hval]) (by omega)
        · exact iff_of_false (by simp [hval]) (fun hc => h3 hc.2)
        · exact iff_of_true (by simp [hval]) ⟨h2, h3⟩
        · exact iff_of_false (by simp [hval]) (fun hc => hc.2.2 ⟨h2, h3⟩)
    · -- Option
      have hval : terminationType pn seq = .option := by
        rw [hcl]; simp [h1, h2]
      refine ⟨?_, ?_, ?_, ?_⟩
      · exact iff_of_false (by simp [hval]) (by omega)
      · exact iff_of_false (by simp [hval]) (fun hc => h2 hc.1)
      · exact iff_of_false (by simp [hval]) (fun hc => h2 hc.1)
      · exact iff_of_true (by simp [hval])
          ⟨by omega, fun hc => h2 hc.1, fun hc => h2 hc.1⟩
  · -- None: fm "Po" ≤ 0, with hnn exactly 0
    have h0 : fm "Po" = 0 := le_antisymm (by omega) hnn
    have hval : terminationType pn seq = .none := by
      rw [hcl]; simp [h1]
    refine ⟨?_, ?_, ?_, ?_⟩
    · exact iff_of_true (by simp [hval]) h0
    · exact iff_of_false (by simp [hval]) (fun hc => by omega)
    · exact iff_of_false (by simp [hval]) (fun hc => by omega)
    · exact iff_of_false (by simp [hval]) (fun hc => by omega)

/-- A net whose single run properly terminates, to instantiate `C2_amended`. -/
def pnC2W : PNModel :=
  ((({} : PNModel).addPlace { id := "Po", tokens := 1, globalSink := true }).addPlace
      { id := "Pq", tokens := 0 })

/-- Witness for `C2_amended`: the trivial net `pnC2W` (no transitions, sink
already holding one token) with its unique simulator run. -/
theorem C2_amended_witness :
    (terminationType pnC2W (seqAt (simulateBehavior pnC2W 5) 0) = TermType.none ↔
      getFinalMarking (seqAt (simulateBehavior pnC2W 5) 0) "Po" = 0) ∧
    (terminationType pnC2W (seqAt (simulateBehavior pnC2W 5) 0) = TermType.proper ↔
      getFinalMarking (seqAt (simulateBehavior pnC2W 5) 0) "Po" = 1 ∧
      ∀ p ∈ pnC2W.places, p.id ≠ "Po" →
        getFinalMarking (seqAt (simulateBehavior pnC2W 5) 0) p.id = 0) ∧
    (terminationType pnC2W (seqAt (simulateBehavior pnC2W 5) 0) = TermType.weak ↔
      getFinalMarking (seqAt (simulateBehavior pnC2W 5) 0) "Po" = 1 ∧
      ¬(∀ p ∈ pnC2W.places, p.id ≠ "Po" →
        getFinalMarking (seqAt (simulateBehavior pnC2W 5) 0) p.id = 0)) ∧
    (terminationType pnC2W (seqAt (simulateBehavior pnC2W 5) 0) = TermType.option ↔
      1 ≤ getFinalMarking (seqAt (simulateBehavior pnC2W 5) 0) "Po" ∧
      ¬(getFinalMarking (seqAt (simulateBehavior pnC2W 5) 0) "Po" = 1 ∧
        ∀ p ∈ pnC2W.places, p.id ≠ "Po" →
          getFinalMarking (seqAt (simulateBehavior pnC2W 5) 0) p.id = 0) ∧
      ¬(getFinalMarking (seqAt (simulateBehavior pnC2W 5) 0) "Po" = 1 ∧
        ¬(∀ p ∈ pnC2W.places, p.id ≠ "Po" →
          getFinalMarking (seqAt (simulateBehavior pnC2W 5) 0) p.id = 0))) :=
  C2_amended pnC2W (seqAt (simulateBehavior pnC2W 5) 0) (by decide) (by decide)

/-! ## Snapshot and revert (`pnModel.js`, `updateState` / `revertState`)

The mutable state these methods touch: `tokens` per place, the `enabled`
flag per transition (absent before the first update, hence `Option Bool`),
the `fired` flag per arc, and the private `_snapshot`.  All other fields of
the model are never read nor written by them and are omitted here. -/

/-- A place as seen by `updateState`/`revertState`. -/
structure SPlace where
  id : String
  tokens : Int
deriving DecidableEq, Repr

/-- A transition as seen by `updateState`/`revertState` (`none` encodes an
absent `enabled` property). -/
structure STransition where
  id : String
  enabled : Option Bool := none
deriving DecidableEq, Repr

/-- An arc as seen by `updateState`/`revertState` (`none` encodes an absent
`fired` property). -/
structure SArc where
  from' : String
  to' : String
  fired : Option Bool := none
deriving DecidableEq, Repr

/-- The `_snapshot` object: tokens per place id, `enabled` per transition
id, `fired` per arc index. -/
structure Snapshot where
  tokens : List (String × Int)
  enabled : List (String × Option Bool)
  fired : List (Option Bool)
deriving DecidableEq, Repr

/-- The part of the `PNModel` state that `updateState`/`revertState`
read and write. -/
structure SPN where
  places : List SPlace
  transitions : List STransition
  arcs : List SArc
  snapshot : Option Snapshot := none
deriving DecidableEq, Repr

/-- The argument of `updateState` (destructured with defaults
`marking = {}`, `enabledTransitions = []`, `firedTransitions = []`). -/
structure UpdState where
  marking : List (String × Int) := []
  enabledTransitions : List String := []
  firedTransitions : List String := []
deriving DecidableEq, Repr

/-- Integer-valued association-list lookup (`dict[k]`, `hasOwnProperty`). -/
def lookupInt (l : List (String × Int)) (k : String) : Option Int :=
  (l.find? (·.1 == k)).map (·.2)

/-- The snapshot captured on the first `updateState`: all current tokens,
`enabled` values and `fired` values (the latter by array index). -/
def mkSnapshot (pn : SPN) : Snapshot :=
  { tokens := pn.places.map (fun p => (p.id, p.tokens)),
    enabled := pn.transitions.map (fun t => (t.id, t.enabled)),
    fired := pn.arcs.map (·.fired) }

/-- `pnModel.updateState(state)`: snapshot on first call, then overwrite
tokens present in `marking`, set every `enabled` flag from membership in
`enabledTransitions`, and set every `fired` flag from the arc's endpoints
being in `firedTransitions`. -/
def updateState (pn : SPN) (st : UpdState) : SPN :=
  let pn :=
    match pn.snapshot with
    | none => { pn with snapshot := some (mkSnapshot pn) }
    | some _ => pn
  { pn with
    places := pn.places.map (fun p =>
      match lookupInt st.marking p.id with
      | some v => { p with tokens := v }
      | none => p),
    transitions := pn.transitions.map (fun t =>
      { t with enabled := some (st.enabledTransitions.contains t.id) }),
    arcs := pn.arcs.map (fun a =>
      { a with fired := some (st.firedTransitions.contains a.from' ||
                              st.firedTransitions.contains a.to') }) }

/-- The indexed loop of `revertState` over `arcs` and `_snapshot.fired`:
restore each arc's `fired` by index; an index beyond the snapshot reads
`undefined` and deletes the property. -/
def restoreFiredList : List SArc → List (Option Bool) → List SArc
  | [], _ => []
  | a :: as, [] => { a with fired := none } :: restoreFiredList as []
  | a :: as, f :: fs => { a with fired := f } :: restoreFiredList as fs

/-- `pnModel.revertState()`: restore tokens, `enabled` and `fired` from the
snapshot (a captured `undefined` deletes the property) and drop the
snapshot; without a snapshot it is a no-op. -/
def revertState (pn : SPN) : SPN :=
  match pn.snapshot with
  | none => pn
  | some snap =>
      { places := pn.places.map (fun p =>
          match lookupInt snap.tokens p.id with
          | some v => { p with tokens := v }
          | none => p),
        transitions := pn.transitions.map (fun t =>
          { t with enabled := ((snap.enabled.find? (·.1 == t.id)).map (·.2)).getD none }),
        arcs := restoreFiredList pn.arcs snap.fired,
        snapshot := none }

/-- A run of successive `updateState` calls. -/
def applyUpdates (pn : SPN) (us : List UpdState) : SPN :=
  us.foldl updateState pn

lemma updateState_snapshot_of_some (q : SPN) (u : UpdState) (s : Snapshot)
    (h : q.snapshot = some s) : (updateState q u).snapshot = some s := by
  simp [updateState, h]

lemma updateState_snapshot_of_none (q : SPN) (u : UpdState)
    (h : q.snapshot = none) :
    (updateState q u).snapshot = some (mkSnapshot q) := by
  simp [updateState, h]

lemma updateState_place_ids (q : SPN) (u : UpdState) :
    (updateState q u).places.map (·.id) = q.places.map (·.id) := by
  have hcase : ∀ p : SPlace,
      (match lookupInt u.marking p.id with
       | some v => { p with tokens := v }
       | none => p).id = p.id := by
    intro p
    cases lookupInt u.marking p.id <;> rfl
  cases h : q.snapshot <;>
    simp [updateState, h, List.map_map, Function.comp, hcase]

lemma updateState_trans_ids (q : SPN) (u : UpdState) :
    (updateState q u).transitions.map (·.id) = q.transitions.map (·.id) := by
  cases h : q.snapshot <;>
    simp [updateState, h, List.map_map, Function.comp]

lemma updateState_arc_ends (q : SPN) (u : UpdState) :
    (updateState q u).arcs.map (fun a => (a.from', a.to')) =
      q.arcs.map (fun a => (a.from', a.to')) := by
  cases h : q.snapshot <;>
    simp [updateState, h, List.map_map, Function.comp]

lemma lookupInt_self (l : List SPlace) (hnd : (l.map (·.id)).Nodup) :
    ∀ o ∈ l, lookupInt (l.map (fun q => (q.id, q.tokens))) o.id = some o.tokens := by
  induction l with
  | nil => simp
  | cons x xs ih =>
      intro o ho
      simp only [List.map_cons, List.nodup_cons] at hnd
      rcases List.mem_cons.mp ho with rfl | ho'
      · simp [lookupInt]
      · have hmem : o.id ∈ xs.map (·.id) := List.mem_map_of_mem _ ho'
        have hne : (x.id == o.id) = false := by
          have : x.id ≠ o.id := by
            intro he
            exact hnd.1 (by rw [he]; exact hmem)
          simp [this]
        simpa [lookupInt, List.find?, hne] using ih hnd.2 o ho'

lemma lookupEnabled_self (l : List STransition) (hnd : (l.map (·.id)).Nodup) :
    ∀ o ∈ l,
      (((l.map (fun q => (q.id, q.enabled))).find? (·.1 == o.id)).map (·.2)).getD none
        = o.enabled := by
  induction l with
  | nil => simp
  | cons x xs ih =>
      intro o ho
      simp only [List.map_cons, List.nodup_cons] at hnd
      rcases List.mem_cons.mp ho with rfl | ho'
      · simp [List.find?]
      · have hmem : o.id ∈ xs.map (·.id) := List.mem_map_of_mem _ ho'
        have hne : (x.id == o.id) = false := by
          have : x.id ≠ o.id := by
            intro he
            exact hnd.1 (by rw [he]; exact hmem)
          simp [this]
        simpa [List.find?, hne] using ih hnd.2 o ho'

lemma restorePlaces (full : List (String × Int)) :
    ∀ (cur orig : List SPlace),
      cur.map (·.id) = orig.map (·.id) →
      (∀ o ∈ orig, lookupInt full o.id = some o.tokens) →
      (cur.map (fun p =>
        match lookupInt full p.id with
        | some v => { p with tokens := v }
        | none => p)) = orig := by
  intro cur
  induction cur with
  | nil =>
      intro orig hid _
      cases orig with
      | nil => rfl
      | cons o os => simp at hid
  | cons c cs ih =>
      intro orig hid hfull
      cases orig with
      | nil => simp at hid
      | cons o os =>
          simp only [List.map_cons, List.cons.injEq] at hid
          have h1 := hfull o (List.mem_cons_self o os)
          have : lookupInt full c.id = some o.tokens := by rw [hid.1]; exact h1
          simp only [List.map_cons, this]
          refine congrArg₂ _ ?_ (ih os hid.2 (fun x hx => hfull x (List.mem_cons_of_mem o hx)))
          cases c; cases o
          simp at hid ⊢
          exact hid.1

lemma restoreTransitions (full : List (String × Option Bool)) :
    ∀ (cur orig : List STransition),
      cur.map (·.id) = orig.map (·.id) →
      (∀ o ∈ orig, ((full.find? (·.1 == o.id)).map (·.2)).getD none = o.enabled) →
      (cur.map (fun t =>
        { t with enabled := ((full.find? (·.1 == t.id)).map (·.2)).getD none })) = orig := by
  intro cur
  induction cur with
  | nil =>
      intro orig hid _
      cases orig with
      | nil => rfl
      | cons o os => simp at hid
  | cons c cs ih =>
      intro orig hid hfull
      cases orig with
      | nil => simp at hid
      | cons o os =>
          simp only [List.map_cons, List.cons.injEq] at hid
          have h1 := hfull o (List.mem_cons_self o os)
          simp only [List.map_cons]
          refine congrArg₂ _ ?_ (ih os hid.2 (fun x hx => hfull x (List.mem_cons_of_mem o hx)))
          cases c; cases o
          simp at hid h1 ⊢
          exact ⟨hid.1, by rw [← h1, hid.1]⟩

lemma restoreFired_eq :
    ∀ (cur orig : List SArc),
      cur.map (fun a => (a.from', a.to')) = orig.map (fun a => (a.from', a.to')) →
      restoreFiredList cur (orig.map (·.fired)) = orig := by
  intro cur
  induction cur with
  | nil =>
      intro orig hid
      cases orig with
      | nil => rfl
      | cons o os => simp at hid
  | cons c cs ih =>
      intro orig hid
      cases orig with
      | nil => simp at hid
      | cons o os =>
          simp only [List.map_cons, List.cons.injEq, Prod.mk.injEq] at hid
          simp only [List.map_cons, restoreFiredList]
          refine congrArg₂ _ ?_ (ih os hid.2)
          cases c; cases o
          simp at hid ⊢
          exact hid.1

/-- C7: any number of successive `updateState` calls keep only the snapshot
taken before the first one, and a subsequent `revertState` restores every
place's token count, every transition's `enabled` flag and every arc's
`fired` flag to exactly their values before the first call (and clears the
snapshot).  The id-uniqueness hypotheses only state that `places` and
`transitions` are JS dictionaries keyed by id. -/
theorem C7_updateRevert_roundtrip (pn : SPN) (us : List UpdState)
    (h0 : pn.snapshot = none)
    (hp : (pn.places.map (·.id)).Nodup)
    (ht : (pn.transitions.map (·.id)).Nodup) :
    revertState (applyUpdates pn us) = pn := by
  cases us with
  | nil =>
      simp [applyUpdates, revertState, h0]
  | cons u us =>
      have main : ∀ (vs : List UpdState) (q : SPN),
          q.snapshot = some (mkSnapshot pn) →
          q.places.map (·.id) = pn.places.map (·.id) →
          q.transitions.map (·.id) = pn.transitions.map (·.id) →
          q.arcs.map (fun a => (a.from', a.to')) = pn.arcs.map (fun a => (a.from', a.to')) →
          revertState (applyUpdates q vs) = pn := by
        intro vs
        induction vs with
        | nil =>
            intro q hsnap hpl htr har
            rw [applyUpdates, List.foldl_nil]
            have e1 : q.places.map (fun p =>
                match lookupInt (pn.places.map (fun r => (r.id, r.tokens))) p.id with
                | some v => { p with tokens := v }
                | none => p) = pn.places :=
              restorePlaces _ q.places pn.places hpl (lookupInt_self pn.places hp)
            have e2 : q.transitions.map (fun t =>
                { t with enabled := (((pn.transitions.map
                    (fun r => (r.id, r.enabled))).find?
                    (·.1 == t.id)).map (·.2)).getD none }) = pn.transitions :=
              restoreTransitions _ q.transitions pn.transitions htr
                (lookupEnabled_self pn.transitions ht)
            have e3 : restoreFiredList q.arcs (pn.arcs.map (·.fired)) = pn.arcs :=
              restoreFired_eq q.arcs pn.arcs har
            simp only [revertState, hsnap, mkSnapshot]
            rw [e1, e2, e3, ← h0]
        | cons v vs ih =>
            intro q hsnap hpl htr har
            rw [applyUpdates, List.foldl_cons]
            refine ih (updateState q v) ?_ ?_ ?_ ?_
            · exact updateState_snapshot_of_some q v _ hsnap
            · rw [updateState_place_ids, hpl]
            · rw [updateState_trans_ids, htr]
            · rw [updateState_arc_ends, har]
      rw [applyUpdates, List.foldl_cons]
      refine main us (updateState pn u) ?_ ?_ ?_ ?_
      · exact updateState_snapshot_of_none pn u h0
      · exact updateState_place_ids pn u
      · exact updateState_trans_ids pn u
      · exact updateState_arc_ends pn u

/-- A concrete two-place, one-transition, one-arc state for the witness. -/
def spnW : SPN :=
  { places := [{ id := "Pa", tokens := 2 }, { id := "Pb", tokens := 0 }],
    transitions := [{ id := "t1" }],
    arcs := [{ from' := "Pa", to' := "t1" }] }

/-- Two concrete successive updates for the witness. -/
def updW1 : UpdState :=
  { marking := [("Pa", 1), ("Pb", 5)], enabledTransitions := ["t1"],
    firedTransitions := ["t1"] }

/-- A second concrete update (no intervening revert). -/
def updW2 : UpdState :=
  { marking := [("Pa", 0)], enabledTransitions := [], firedTransitions := [] }

/-- Witness for `C7_updateRevert_roundtrip`: two updates then a revert on
the concrete state restore it exactly. -/
theorem C7_updateRevert_roundtrip_witness :
    revertState (applyUpdates spnW [updW1, updW2]) = spnW :=
  C7_updateRevert_roundtrip spnW [updW1, updW2] (by decide) (by decide) (by decide)

/-! ### Claim C10 -/

/-- Register a list of constraints in order, keeping only the registry
state. -/
def registerAll (pn : PNModel) (cs : List String) : PNModel :=
  cs.foldl (fun pn c => (pn.getShortConstraint c).2) pn

/-- 27 pairwise distinct multi-character Σ-constraints. -/
def c10inputs : List String := (List.range 27).map (fun i => "cc" ++ toString i)

/-- C10: registering 27 distinct multi-character constraints exhausts the
letters `a`…`z`; the 27th call reaches `_nextFallback`, whose counter
`this.__nextCounter` was never initialised, so `letters[undefined++]` is
`undefined`, the suffix is `NaN`, and the candidate `undefined + NaN`
evaluates to the number `NaN` — which is stored as the alias instead of the
documented `"a1"` (and the 28th distinct constraint would loop forever). -/
theorem C10_fallback_bug :
    (registerAll ({} : PNModel) c10inputs).constraintMap.map (·.2) =
      ((List.range 26).map (fun i =>
        SCVal.str (String.singleton (Char.ofNat (97 + i))))) ++ [SCVal.nan] := by
  decide

/-! ## RDLT model (`rdltModel.js`) -/

/-- An RDLT vertex as stored in `this.nodes`: the parsed fields plus the
flags the preprocessor and the mapper attach (`isInBridge`, `isOutBridge`,
`rbsGroup`, `center`, and the `splitPlace` marker that mapper step 2 sets). -/
structure RNode where
  id : String
  type : String := "c"
  label : String := ""
  M : Int := 0
  isInBridge : Bool := false
  isOutBridge : Bool := false
  rbsGroup : Option String := none
  center : Bool := false
  splitPlace : Bool := false
deriving DecidableEq, Repr

/-- An RDLT edge as stored in `this.edges`.  `type` is `some "abstract"` on
the abstract arcs the preprocessor synthesises and absent otherwise; `path`
is the `concretePath` annotation of abstract arcs. -/
structure REdge where
  from' : String
  to' : String
  C : String := "ϵ"
  L : Int := 1
  type : Option String := none
  rbsGroup : Option String := none
  path : Option String := none
deriving DecidableEq, Repr

/-- The `RDLTModel` state: the node dictionary (insertion order, unique
ids), the edges array, and the `rbsGroups` map the combiner attaches. -/
structure RModel where
  nodes : List RNode := []
  edges : List REdge := []
  rbsGroups : List (String × List String) := []
deriving Repr

/-- Truthiness of `this.nodes[id]`. -/
def RModel.hasNode (m : RModel) (id : String) : Bool :=
  m.nodes.any (·.id == id)

/-- `this.getNode(id)`. -/
def RModel.getNode? (m : RModel) (id : String) : Option RNode :=
  m.nodes.find? (·.id == id)

/-- `node.outgoing`: `addEdge` attaches an edge to the adjacency lists only
when both endpoints exist; in every construction in the repository the
nodes of an edge are added before the edge, so the incremental lists equal
this filter over the final model. -/
def RModel.outgoing (m : RModel) (id : String) : List REdge :=
  m.edges.filter (fun e => e.from' == id && m.hasNode e.from' && m.hasNode e.to')

/-- `node.incoming`, recovered the same way as `outgoing`. -/
def RModel.incoming (m : RModel) (id : String) : List REdge :=
  m.edges.filter (fun e => e.to' == id && m.hasNode e.from' && m.hasNode e.to')

/-- JS `Set` insertion (insertion-ordered, duplicate-free). -/
def setInsert (x : String) (l : List String) : List String :=
  if l.contains x then l else l ++ [x]

/-- `rdltModel.getVerticesInRBS(centerId)`: the center plus the targets of
its immediate outgoing ε-edges (its own doc comment: "all nodes *directly*
connected from the center by an epsilon edge"). -/
def RModel.getVerticesInRBS (m : RModel) (centerId : String) : List String :=
  match m.getNode? centerId with
  | none => []
  | some centerNode =>
      (m.outgoing centerNode.id).foldl
        (fun acc e => if e.C == "ϵ" then setInsert e.to' acc else acc) [centerId]

/-- `isReachable`'s BFS loop: pop the queue, succeed on the target, mark
visited, push unvisited successors.  `fuel` bounds the number of loop
iterations (the JS loop always terminates since ids are only pushed while
unvisited, but the iteration count is not structurally evident). -/
def isReachableAux (m : RModel) (targetId : String) :
    Nat → List String → List String → Bool
  | 0, _, _ => false
  | _ + 1, _, [] => false
  | fuel + 1, visited, curr :: queue =>
      if curr == targetId then true
      else
        let visited := setInsert curr visited
        let pushes := (m.outgoing curr).filterMap
          (fun e => if visited.contains e.to' then none else some e.to')
        isReachableAux m targetId fuel visited (queue ++ pushes)

/-- A fuel bound dominating the BFS loop iterations: total pushes are
bounded by the (finite) number of edge traversals from unvisited ids. -/
def bfsFuel (m : RModel) : Nat :=
  2 ^ (m.nodes.length + m.edges.length + 4)

/-- `rdltModel.isReachable(startId, targetId)`. -/
def RModel.isReachable (m : RModel) (startId targetId : String) : Bool :=
  isReachableAux m targetId (bfsFuel m) [] [startId]

/-- The DFS of `getElementaryPathsBetween`: state is the accumulated
`(paths, seenPaths)`; `fuel` bounds the recursion depth (each level extends
`visited`, so depth is at most the number of distinct ids). -/
def gepDfs (m : RModel) (endId : String) :
    Nat → String → List String → List String →
    List (List String) × List String → List (List String) × List String
  | 0, _, _, _, st => st
  | fuel + 1, currentId, path, visited, st =>
      if currentId == endId then
        let pathStr := String.intercalate "->" path
        if st.2.contains pathStr then st
        else (st.1 ++ [path], st.2 ++ [pathStr])
      else
        (m.outgoing currentId).foldl (fun st e =>
          if visited.contains e.to' then st
          else gepDfs m endId fuel e.to' (path ++ [e.to']) (visited ++ [e.to']) st) st

/-- `rdltModel.getElementaryPathsBetween(startId, endId)`. -/
def RModel.getElementaryPathsBetween (m : RModel) (startId endId : String) :
    List (List String) :=
  (gepDfs m endId (m.nodes.length + m.edges.length + 2) startId [startId]
    [startId] ([], [])).1

/-- The `"from-to"` edge strings of a process (consecutive pairs). -/
def edgeStrs : List String → List String
  | a :: b :: rest => (a ++ "-" ++ b) :: edgeStrs (b :: rest)
  | _ => []

/-- Check a predicate over all ordered pairs `i < j` of a list. -/
def anyPair (p : (String × String × List String) →
    (String × String × List String) → Bool) :
    List (String × String × List String) → Bool
  | [] => false
  | x :: xs => xs.any (p x) || anyPair p xs

/-- `RDLTModel.hasAnySiblingPair(processes)`: some pair of processes shares
start and end and has disjoint edge sets. -/
def hasAnySiblingPair (processes : List (List String)) : Bool :=
  if processes.length < 2 then false
  else
    let meta := processes.map (fun proc =>
      (proc.headD "", proc.getLastD "", edgeStrs proc))
    anyPair (fun a b =>
      a.1 == b.1 && a.2.1 == b.2.1 &&
        a.2.2.all (fun e => !(b.2.2.contains e))) meta

/-- `rdltModel.isOrJoin(node)`: at least two incoming edges, all with the
same constraint. -/
def RModel.isOrJoinNode (m : RModel) (n : RNode) : Bool :=
  let inc := m.incoming n.id
  if inc.length < 2 then false
  else inc.all (fun e => e.C == (inc.headD e).C)

/-- `rdltModel.hasSiblingsWithORJoinMergePoint(vertex)`. -/
def RModel.hasSiblingsWithORJoinMergePoint (m : RModel) (v : RNode) : Bool :=
  let candidateOrJoinVertices :=
    m.nodes.filter (fun n => m.isOrJoinNode n && m.isReachable v.id n.id)
  candidateOrJoinVertices.any (fun j =>
    let processes := m.getElementaryPathsBetween v.id j.id
    processes.length ≥ 2 && hasAnySiblingPair processes)

/-- `rdltModel.hasNonSiblingPaths(vertex)`. -/
def RModel.hasNonSiblingPaths (m : RModel) (v : RNode) : Bool :=
  let outgoingEdges := m.edges.filter (·.from' == v.id)
  if outgoingEdges.length < 2 then false
  else
    let candidateJoinVertices :=
      m.nodes.filter (fun n => (m.incoming n.id).length ≥ 2 && m.isReachable v.id n.id)
    if candidateJoinVertices.isEmpty then true
    else
      !(candidateJoinVertices.any (fun j =>
        let processes := m.getElementaryPathsBetween v.id j.id
        processes.length ≥ 2 && hasAnySiblingPair processes))

/-- `rdltModel.hasAbstractArc(vertex)`. -/
def RModel.hasAbstractArc (m : RModel) (v : RNode) : Bool :=
  (m.edges.filter (·.from' == v.id)).any (fun e => e.type == some "abstract")

/-- `rdltModel.hasLoopingArc(startId)`: a direct self-loop or an outgoing
edge whose target reaches back to the start. -/
def RModel.hasLoopingArc (m : RModel) (startId : String) : Bool :=
  match m.getNode? startId with
  | none => false
  | some _ =>
      (m.outgoing startId).any (fun e =>
        e.to' == startId || m.isReachable e.to' startId)

/-- The object `checkIfSplitCase1` returns for a vertex with at least two
outgoing edges. -/
structure SplitRes where
  case1 : Bool
  isSiblingsOrJoin : Bool
  isNonSiblings : Bool
  hasAbstract : Bool
  hasLoop : Bool
deriving DecidableEq, Repr

/-- `rdltModel.checkIfSplitCase1(vertex)`: `none` models the primitive
`false` returned for vertices with fewer than two outgoing edges; otherwise
the result object with the four condition flags and their disjunction. -/
def RModel.checkIfSplitCase1 (m : RModel) (v : RNode) : Option SplitRes :=
  let outgoingEdges := m.edges.filter (·.from' == v.id)
  if outgoingEdges.length < 2 then none
  else
    let siblings := m.hasSiblingsWithORJoinMergePoint v
    let nonSiblings := m.hasNonSiblingPaths v
    let hasAbstract := m.hasAbstractArc v
    let hasLoop := m.hasLoopingArc v.id
    some { case1 := siblings || nonSiblings || hasAbstract || hasLoop,
           isSiblingsOrJoin := siblings, isNonSiblings := nonSiblings,
           hasAbstract := hasAbstract, hasLoop := hasLoop }

/-! ### Claim C3 -/

/-- BFS step of the ε-closure described by the spec. -/
def rbsClosureAux (m : RModel) : Nat → List String → List String → List String
  | 0, visited, _ => visited
  | _ + 1, visited, [] => visited
  | fuel + 1, visited, curr :: queue =>
      let targets := (m.outgoing curr).filterMap
        (fun e => if e.C == "ϵ" then some e.to' else none)
      let st := targets.foldl (fun (st : List String × List String) t =>
        if st.1.contains t then st else (st.1 ++ [t], st.2 ++ [t]))
        (visited, queue)
      rbsClosureAux m fuel st.1 st.2

/-- Modelled from the spec (§3, RBS): the reset-center plus all vertices
reachable from it through chains of outgoing ε-edges (the transitive
closure, "BFS along outgoing ε-edges only").  Spec-side comparison
definition for claim C3; the source-side definition is
`RModel.getVerticesInRBS`. -/
def rbsClosureSpec (m : RModel) (centerId : String) : List String :=
  rbsClosureAux m (bfsFuel m) [centerId] [centerId]

/-- An ε-chain `c → a → b` on which one-step collection and the closure
differ. -/
def rmC3 : RModel :=
  { nodes := [{ id := "c" }, { id := "a" }, { id := "b" }],
    edges := [{ from' := "c", to' := "a" }, { from' := "a", to' := "b" }] }

/-- C3, counterexample: on the ε-chain `c → a → b` the code returns only
`{c, a}` — the immediate ε-successors — while the spec's transitive closure
also contains `b`. -/
theorem C3_counterexample :
    rmC3.getVerticesInRBS "c" = ["c", "a"] ∧
    rbsClosureSpec rmC3 "c" = ["c", "a", "b"] ∧
    ("b" ∈ rbsClosureSpec rmC3 "c" ∧ "b" ∉ rmC3.getVerticesInRBS "c") := by
  decide

lemma mem_setInsert (x y : String) (l : List String) :
    x ∈ setInsert y l ↔ x = y ∨ x ∈ l := by
  unfold setInsert
  by_cases h : l.contains y
  · simp only [h, if_true]
    constructor
    · exact Or.inr
    · rintro (rfl | hx)
      · exact List.mem_of_elem_eq_true h
      · exact hx
  · simp only [h, Bool.false_eq_true, if_false, List.mem_append,
      List.mem_singleton]
    tauto

lemma foldlEps_mem (l : List REdge) (acc : List String) (x : String) :
    (x ∈ l.foldl (fun acc e => if e.C == "ϵ" then setInsert e.to' acc else acc) acc) ↔
      x ∈ acc ∨ ∃ e ∈ l, e.C = "ϵ" ∧ e.to' = x := by
  induction l generalizing acc with
  | nil => simp
  | cons e l ih =>
      simp only [List.foldl_cons]
      by_cases he : e.C = "ϵ"
      · have hb : (e.C == "ϵ") = true := by simp [he]
        rw [hb]
        simp only [if_true, ih, mem_setInsert]
        constructor
        · rintro ((rfl | hx) | ⟨f, hf, hfc, hft⟩)
          · exact Or.inr ⟨e, List.mem_cons_self e l, he, rfl⟩
          · exact Or.inl hx
          · exact Or.inr ⟨f, List.mem_cons_of_mem e hf, hfc, hft⟩
        · rintro (hx | ⟨f, hf, hfc, hft⟩)
          · exact Or.inl (Or.inr hx)
          · rcases List.mem_cons.mp hf with rfl | hf'
            · exact Or.inl (Or.inl hft.symm)
            · exact Or.inr ⟨f, hf', hfc, hft⟩
      · have hb : (e.C == "ϵ") = false := by simp [he]
        rw [hb]
        simp only [Bool.false_eq_true, if_false, ih]
        constructor
        · rintro (hx | ⟨f, hf, hfc, hft⟩)
          · exact Or.inl hx
          · exact Or.inr ⟨f, List.mem_cons_of_mem e hf, hfc, hft⟩
        · rintro (hx | ⟨f, hf, hfc, hft⟩)
          · exact Or.inl hx
          · rcases List.mem_cons.mp hf with rfl | hf'
            · exact absurd hfc he
            · exact Or.inr ⟨f, hf', hfc, hft⟩

/-- C3, amended claim: for a center present in the model, the set returned
for its RBS consists of the center together with exactly the *immediate*
targets of its outgoing ε-edges — one step, not the transitive closure. -/
theorem C3_amended (m : RModel) (c : String) (x : String)
    (h : m.hasNode c = true) :
    x ∈ m.getVerticesInRBS c ↔
      x = c ∨ ∃ e ∈ m.outgoing c, e.C = "ϵ" ∧ e.to' = x := by
  unfold RModel.getVerticesInRBS
  have hsome : ∃ node, m.getNode? c = some node := by
    have : (∃ n ∈ m.nodes, (fun n => n.id == c) n = true) →
        (m.nodes.find? (fun n => n.id == c)).isSome = true :=
      (List.find?_isSome).mpr
    unfold RModel.hasNode at h
    rcases List.any_eq_true.mp h with ⟨n, hn, hnc⟩
    rcases Option.isSome_iff_exists.mp (this ⟨n, hn, hnc⟩) with ⟨node, hnode⟩
    exact ⟨node, hnode⟩
  rcases hsome with ⟨node, hnode⟩
  have hid : node.id = c := by
    have := List.find?_some hnode
    simpa [beq_iff_eq] using this
  rw [hnode]
  simp only [hid, foldlEps_mem, List.mem_singleton]

/-- Witness for `C3_amended` at the chain model and the vertex `a`. -/
theorem C3_amended_witness :
    "a" ∈ rmC3.getVerticesInRBS "c" ↔
      "a" = "c" ∨ ∃ e ∈ rmC3.outgoing "c", e.C = "ϵ" ∧ e.to' = "a" :=
  C3_amended rmC3 "c" "a" (by decide)

/-! ## Structural mapper (`strategy.js`, `mapper.js`)

String helpers are re-implemented over character lists because the
iterator-based `String` library functions do not reduce inside the kernel;
they compute the same values on the data in play. -/

/-- `id.startsWith(pre)` (character-list prefix test). -/
def isPreList : List Char → List Char → Bool
  | [], _ => true
  | _ :: _, [] => false
  | c :: cs, d :: ds => c == d && isPreList cs ds

/-- `t.id.startsWith(s)`. -/
def strStartsWith (s pre : String) : Bool := isPreList pre.data s.data

/-- `label.trim() !== ''`: the label contains a non-whitespace character. -/
def trimNonempty (s : String) : Bool :=
  s.data.any (fun c => !(c == ' ' || c == '\t' || c == '\n' || c == '\r'))

/-- `str.split(',')` (including empty pieces). -/
def splitCommaAux : List Char → List Char → List String
  | acc, [] => [String.mk acc.reverse]
  | acc, c :: rest =>
      if c == ',' then String.mk acc.reverse :: splitCommaAux [] rest
      else splitCommaAux (c :: acc) rest

/-- `str.split(',')`. -/
def splitComma (s : String) : List String := splitCommaAux [] s.data

/-- Strict string comparison (for the stable `sort`). -/
def strLt (a b : String) : Bool := strLe a b && !(a == b)

/-- Dictionary assignment over an integer-valued map. -/
def setIntMap (k : String) (v : Int) : List (String × Int) → List (String × Int)
  | [] => [(k, v)]
  | q :: rest => if q.1 == k then (k, v) :: rest else q :: setIntMap k v rest

/-- Lookup in an integer-valued map. -/
def getIntMap (im : List (String × Int)) (k : String) : Option Int :=
  (im.find? (·.1 == k)).map (·.2)

/-- Remove the first arc matching a predicate (JS `removeArc` of the object
found by `findIndex`). -/
def removeFirstArc (p : Arc → Bool) : List Arc → List Arc
  | [] => []
  | a :: rest => if p a then rest else a :: removeFirstArc p rest

/-- Mutate the `to` field of the first arc matching a predicate (step 5's
`.find(...).to = sigmaPlaceId`; when no arc matches the JS code throws a
`TypeError`, which never happens on the inputs exercised here). -/
def mutateFirstTo (p : Arc → Bool) (newTo : String) : List Arc → List Arc
  | [] => []
  | a :: rest => if p a then { a with to' := newTo } :: rest
                 else a :: mutateFirstTo p newTo rest

/-- `pnModel.insertNodeOnArc(sourceId, targetId, newNodeId)`: replace the
first arc `sourceId → targetId` by `sourceId → newNodeId → targetId`
(normal); a missing arc only logs an error. -/
def PNModel.insertNodeOnArc (pn : PNModel) (sourceId targetId newNodeId : String) :
    PNModel :=
  let p : Arc → Bool := fun a => a.from' == sourceId && a.to' == targetId
  if pn.arcs.any p then
    let pn := { pn with arcs := removeFirstArc p pn.arcs }
    (pn.addArc { from' := sourceId, to' := newNodeId, type := .normal }).addArc
      { from' := newNodeId, to' := targetId, type := .normal }
  else pn

/-- `pnModel.insertNodeOnOutgoingArcs(sourceId, newNodeId)`: reroute all
arcs out of `sourceId` through `newNodeId` (the reattached arcs keep only
their `type`). -/
def PNModel.insertNodeOnOutgoingArcs (pn : PNModel) (sourceId newNodeId : String) :
    PNModel :=
  let outgoingArcs := pn.arcs.filter (·.from' == sourceId)
  let pn := { pn with arcs := pn.arcs.filter (fun a => !(a.from' == sourceId)) }
  let pn := pn.addArc { from' := sourceId, to' := newNodeId, type := .normal }
  outgoingArcs.foldl (fun pn a =>
    pn.addArc { from' := newNodeId, to' := a.to', type := a.type }) pn

/-- `pnModel.insertNodeOnIncomingArcs(targetId, newNodeId, onlySigmaArcs,
incomingEpsilonEdges)`: reroute the selected arcs into `targetId` through
`newNodeId` (the reattached arcs keep `type` and `C`); with `onlySigmaArcs`
the arcs whose source is `T<eps.from>` for an ε-edge are left in place. -/
def PNModel.insertNodeOnIncomingArcs (pn : PNModel) (targetId newNodeId : String)
    (onlySigmaArcs : Bool := false) (incomingEpsilonEdges : List REdge := []) :
    PNModel :=
  let excludeFroms := incomingEpsilonEdges.map (fun e => "T" ++ e.from')
  let sel : Arc → Bool := fun a =>
    a.to' == targetId && (!onlySigmaArcs || !(excludeFroms.contains a.from'))
  let incomingArcs := pn.arcs.filter sel
  let pn := { pn with arcs := pn.arcs.filter (fun a => !(sel a)) }
  let pn := pn.addArc { from' := newNodeId, to' := targetId, type := .normal }
  incomingArcs.foldl (fun pn a =>
    pn.addArc { from' := a.from', to' := newNodeId, type := a.type, C := a.C }) pn

/-- `vertex.splitPlace = true` on the node dictionary. -/
def RModel.setSplitFlag (m : RModel) (id : String) : RModel :=
  { m with nodes := m.nodes.map (fun n =>
      if n.id == id then { n with splitPlace := true } else n) }

/-- Step 1, `mapVertexToTransition`: one `check` transition per vertex and
one raw arc per edge (`abstract` tag preserved); log strings are dropped. -/
def mapVertexToTransition (rm : RModel) (pn : PNModel) : PNModel :=
  let pn := rm.nodes.foldl (fun pn v =>
    let pn := pn.addTransition
      { id := formatPNId "T" v.id "",
        label := "check(" ++ v.id ++ ")", checkTransition := true }
    if trimNonempty v.label && v.rbsGroup == none then
      { pn with vertexLabelMap := setStr v.id v.label pn.vertexLabelMap }
    else pn) pn
  rm.edges.foldl (fun pn e => pn.addArc
    { from' := formatPNId "T" e.from' "", to' := formatPNId "T" e.to' "",
      type := if e.type == some "abstract" then .abstract else .normal }) pn

/-- Step 2, `handleSplitPlaces`: for every vertex whose `checkIfSplitCase1`
result object has `case1 === true`, record `vertex.splitPlace`, create the
split place and reroute the vertex's outgoing arcs through it. -/
def handleSplitPlaces (rm : RModel) (pn : PNModel) : RModel × PNModel :=
  rm.nodes.foldl (fun (st : RModel × PNModel) v =>
    match st.1.checkIfSplitCase1 v with
    | some res =>
        if res.case1 then
          let splitPlace : Place :=
            { id := formatPNId "P" v.id "split",
              label := "checked(" ++ v.id ++ ")", splitPlace := true, tokens := 0 }
          (st.1.setSplitFlag v.id,
           (st.2.addPlace splitPlace).insertNodeOnOutgoingArcs
             (formatPNId "T" v.id "") splitPlace.id)
        else st
    | none => st) (rm, pn)

/-- The `"(from,to),(from,to),…"` rendering of an edge list (first element
then the remaining ones). -/
def arcPairStrs : List REdge → String
  | [] => ""
  | e0 :: rest => rest.foldl
      (fun s e => s ++ ",(" ++ e.from' ++ "," ++ e.to' ++ ")")
      ("(" ++ e0.from' ++ "," ++ e0.to' ++ ")")

/-- `Math.min(...)` over a non-empty integer list (`0` is never used). -/
def listMin : List Int → Int
  | [] => 0
  | x :: xs => xs.foldl min x

/-- The `auxLabel` loop of step 3 (`i` advances by 2 while
`i < splitString.length - 2`; out-of-range indices render as
`"undefined"`). -/
def auxLabelGo (ss : List String) (allSame : Bool) : Nat → Nat → String → String
  | 0, _, acc => acc
  | fuel + 1, i, acc =>
      if i < ss.length - 2 then
        let acc := if i == 0 then
            (if allSame then "sum" else "min") ++ "\x7b" ++ acc
          else acc
        let acc := acc ++ ",L" ++ ss.getD (2 + i) "undefined" ++ "," ++
          ss.getD (2 + i + 1) "undefined"
        let acc := if i + 2 == ss.length - 2 then acc ++ "\x7d" else acc
        auxLabelGo ss allSame fuel (i + 2) acc
      else acc

/-- The `auxLabel` of the `PJ` place in step 3. -/
def mkAuxLabel (traversableArcs : String) (allSame : Bool) : String :=
  let ss := splitComma traversableArcs
  auxLabelGo ss allSame ss.length 0
    ("L" ++ ss.getD 0 "undefined" ++ "," ++ ss.getD 1 "undefined")

/-- Step 3, `handleIncomingArcs`: create `P<id>m` per vertex with incoming
edges, the global sink for `o`, and `TJ`/`PJ` for Σ-constrained incoming
edges. -/
def handleIncomingArcs (rm : RModel) (pn : PNModel) : PNModel :=
  rm.nodes.foldl (fun pn v =>
    let incomingEdges := rm.edges.filter (·.to' == v.id)
    if incomingEdges.isEmpty then pn
    else
      let Pym : Place :=
        { id := formatPNId "P" v.id "m",
          label := "traversed(" ++ arcPairStrs incomingEdges ++ ")",
          traversedPlace := true, tokens := 0 }
      let pn := (pn.addPlace Pym).insertNodeOnIncomingArcs
        (formatPNId "T" v.id "") Pym.id
      let pn := if v.id == "o" then
          let pn := pn.addPlace
            { id := "Po", label := "Sink", globalSink := true, tokens := 0 }
          pn.addArc
            { from' := formatPNId "T" v.id "", to' := "Po", type := .normal }
        else pn
      let sigmaEdges := incomingEdges.filter (fun e => !(e.C == "ϵ"))
      match sigmaEdges with
      | [] => pn
      | s0 :: srest =>
        let traversableArcs := arcPairStrs sigmaEdges
        let TJy : Transition :=
          { id := formatPNId "T" ("J" ++ v.id) "",
            label := "traverse(" ++ traversableArcs ++ ")",
            traverseTransition := true, activities := some traversableArcs }
        let pn := pn.addTransition TJy
        let pn :=
          if srest.isEmpty then
            let srcSplit := ((rm.getNode? s0.from').map (·.splitPlace)).getD false
            if srcSplit then
              pn.insertNodeOnArc (formatPNId "P" s0.from' "split") Pym.id TJy.id
            else
              pn.insertNodeOnArc (formatPNId "T" s0.from' "") Pym.id TJy.id
          else
            -- `if (incomingEpsilonEdges)`: a JS array is always truthy
            pn.insertNodeOnIncomingArcs Pym.id TJy.id true
              (incomingEdges.filter (·.C == "ϵ"))
        let allSameNonEpsilon := sigmaEdges.all
          (fun e => e.C == s0.C && !(e.C == "ϵ"))
        let tokenCount := if allSameNonEpsilon then
            sigmaEdges.foldl (fun s e => s + e.L) 0
          else listMin (sigmaEdges.map (·.L))
        let PJy : Place :=
          { id := formatPNId "P" ("J" ++ v.id) "",
            label := mkAuxLabel traversableArcs allSameNonEpsilon,
            tokens := tokenCount, auxiliary := true,
            resetTarget := some (formatPNId "T" v.id ""), rbsGroup := v.rbsGroup }
        (pn.addPlace PJy).addArc { from' := PJy.id, to' := TJy.id, type := .normal })
    pn

/-- Step 4, `handleEpsilonArcs`: one `traverse` transition per ε-edge;
abstract edges are indexed by `indexMap[sourceId,targetId]`, which under
the JS comma operator is keyed by the *target* only; their raw abstract
arcs are removed (keyed on the split place when one exists, else on the
source transition). -/
def handleEpsilonArcs (rm : RModel) (pn : PNModel) : PNModel :=
  let epsilonArcs := rm.edges.filter (·.C == "ϵ")
  (epsilonArcs.foldl (fun (st : List (String × Int) × PNModel) arc =>
    let sourceId := arc.from'
    let targetId := arc.to'
    if arc.type == some "abstract" then
      let n := match getIntMap st.1 targetId with
        | none => 1
        | some k => k + 1
      let im := setIntMap targetId n st.1
      let T_epsilon : Transition :=
        { id := formatPNId "T" ("ϵ" ++ targetId) ("_" ++ toString n),
          label := "traverse((" ++ sourceId ++ "," ++ targetId ++
            "))\\nrbsPath(" ++ arc.path.getD "undefined" ++ ")",
          traverseTransition := true,
          activities := some ("(" ++ sourceId ++ "," ++ targetId ++ ")") }
      let pn := st.2.addTransition T_epsilon
      let pn :=
        if pn.hasPlaceId (formatPNId "P" sourceId "split") then
          let pred : Arc → Bool := fun a =>
            a.from' == formatPNId "P" sourceId "split" && a.type == ArcType.abstract
          let pn := { pn with arcs := pn.arcs.filter (fun a => !(pred a)) }
          let pn := pn.addArc
            { from' := formatPNId "P" sourceId "split",
              to' := T_epsilon.id, type := .normal }
          pn.addArc
            { from' := T_epsilon.id, to' := formatPNId "P" targetId "m",
              type := .normal }
        else
          let pred : Arc → Bool := fun a =>
            a.from' == formatPNId "T" sourceId "" && a.type == ArcType.abstract
          let pn := { pn with arcs := pn.arcs.filter (fun a => !(pred a)) }
          let pn := pn.addArc
            { from' := formatPNId "T" sourceId "",
              to' := T_epsilon.id, type := .normal }
          let pn := pn.addArc
            { from' := T_epsilon.id, to' := formatPNId "P" targetId "m",
              type := .normal }
          let pn := pn.addPlace
            { id := formatPNId "P" ("ϵ" ++ targetId ++ sourceId) "",
              label := "checked(" ++ sourceId ++ ")", checkedPlace := true,
              tokens := 0 }
          pn.insertNodeOnArc (formatPNId "T" sourceId "") T_epsilon.id
            (formatPNId "P" ("ϵ" ++ targetId ++ sourceId) "")
      let epsilonAuxPlace : Place :=
        { id := formatPNId "P" ("ϵn" ++ targetId) ("_" ++ toString n),
          label := "L((" ++ sourceId ++ "," ++ targetId ++ "))\\nrbsPath(" ++
            arc.path.getD "undefined" ++ ")",
          tokens := arc.L, auxiliary := true,
          resetTarget := some (formatPNId "T" targetId "") }
      (im, (pn.addPlace epsilonAuxPlace).addArc
        { from' := epsilonAuxPlace.id, to' := T_epsilon.id, type := .normal })
    else
      let T_epsilon : Transition :=
        { id := formatPNId "T" ("ϵ" ++ targetId ++ sourceId) "",
          label := "traverse((" ++ sourceId ++ "," ++ targetId ++ "))",
          traverseTransition := true,
          activities := some ("(" ++ sourceId ++ "," ++ targetId ++ ")") }
      let pn := st.2.addTransition T_epsilon
      let srcSplit := ((rm.getNode? sourceId).map (·.splitPlace)).getD false
      let pn :=
        if !srcSplit then
          let pn := pn.insertNodeOnArc (formatPNId "T" sourceId "")
            (formatPNId "P" targetId "m") T_epsilon.id
          let pn := pn.addPlace
            { id := formatPNId "P" ("ϵ" ++ targetId ++ sourceId) "",
              label := "checked(" ++ sourceId ++ ")", checkedPlace := true,
              tokens := 0 }
          pn.insertNodeOnArc (formatPNId "T" sourceId "") T_epsilon.id
            (formatPNId "P" ("ϵ" ++ targetId ++ sourceId) "")
        else
          pn.insertNodeOnArc (formatPNId "P" sourceId "split")
            (formatPNId "P" targetId "m") T_epsilon.id
      let epsilonAuxPlace : Place :=
        { id := formatPNId "P" ("ϵn" ++ targetId ++ sourceId) "",
          label := "L(" ++ sourceId ++ "," ++ targetId ++ ")",
          tokens := arc.L, auxiliary := true,
          resetTarget := some (formatPNId "T" targetId ""),
          rbsGroup := arc.rbsGroup }
      (st.1, (pn.addPlace epsilonAuxPlace).addArc
        { from' := epsilonAuxPlace.id, to' := T_epsilon.id, type := .normal }))
    ([], pn)).2

/-- Stable insertion for the `localeCompare` sort of step 5 (the constraints
in play are same-case ASCII, where locale order and code-point order
agree). -/
def insertByC (x : REdge) : List REdge → List REdge
  | [] => [x]
  | y :: ys => if strLt x.C y.C then x :: y :: ys else y :: insertByC x ys

/-- `singleCharArcs.sort((a, b) => a.C.localeCompare(b.C))`. -/
def sortSigmaByC (l : List REdge) : List REdge :=
  l.foldl (fun acc x => insertByC x acc) []

/-- The body of step 5's `forEach` for one Σ-edge. -/
def step5One (rm : RModel) (sigmaArcs : List REdge) (pn : PNModel)
    (edge : REdge) : PNModel :=
  let sourceId := edge.from'
  let targetId := edge.to'
  let origC := edge.C
  let scr := pn.getShortConstraint origC
  let constraint := scr.1
  let pn := scr.2
  let srcSplit := ((rm.getNode? sourceId).map (·.splitPlace)).getD false
  if srcSplit then pn
  else
    let sigmaPlaceId := formatPNId "P" (constraint.show ++ targetId) ""
    if pn.hasPlaceId sigmaPlaceId then
      { pn with arcs := mutateFirstTo (fun a =>
          a.from' == formatPNId "T" sourceId "" &&
          a.to' == formatPNId "T" ("J" ++ targetId) "") sigmaPlaceId pn.arcs }
    else
      let pn := pn.addPlace
        { id := sigmaPlaceId, label := "checked(" ++ sourceId ++ ")",
          checkedPlace := true, tokens := 0 }
      let pn := pn.insertNodeOnArc (formatPNId "T" sourceId "")
        (formatPNId "T" ("J" ++ targetId) "") sigmaPlaceId
      let epsPre := formatPNId "T" ("ϵ" ++ targetId) ""
      let tEpsList := pn.transitions.filter (fun t => strStartsWith t.id epsPre)
      if tEpsList.isEmpty then pn
      else
        match rm.edges.filter (fun e => e.C == "ϵ" && e.to' == targetId) with
        | [] => pn  -- JS dereferences `incomingEpsilonArcs[0]` and throws
        | e0 :: erest =>
          let unconstrainedEpsilonArcs := arcPairStrs (e0 :: erest)
          let sigmaEpsilonPlaceId := formatPNId "P" (constraint.show ++ "ϵ") ""
          let pn := if pn.hasPlaceId sigmaEpsilonPlaceId then pn
            else pn.addPlace
              { id := sigmaEpsilonPlaceId,
                label := "unconstrained(" ++ unconstrainedEpsilonArcs ++ ")",
                unconstrainedPlace := true, tokens := 0 }
          let pn := tEpsList.foldl (fun pn t =>
            let pn := pn.addArc
              { from' := sigmaEpsilonPlaceId, to' := t.id, type := .normal }
            pn.addArc
              { from' := t.id, to' := sigmaEpsilonPlaceId, type := .normal }) pn
          let pn := (sigmaArcs.filter (fun e2 =>
              e2.to' == targetId && e2.C == origC)).foldl
            (fun pn e2 => pn.addArc
              { from' := formatPNId "T" e2.from' "",
                to' := sigmaEpsilonPlaceId, type := .normal }) pn
          let pn := if rm.hasNode "o" then
              pn.addArc { from' := sigmaEpsilonPlaceId, to' := "To", type := .reset }
            else pn
          let pn :=
            if !(pn.arcs.any (fun a =>
                a.from' == formatPNId "P" targetId "m" && a.type == ArcType.reset)) then
              let pn := pn.addArc
                { from' := formatPNId "P" targetId "m",
                  to' := formatPNId "T" targetId "", type := .reset }
              { pn with places := pn.places.map (fun p =>
                  if p.id == formatPNId "P" targetId "m" then
                    { p with mixJoinPlace := true } else p) }
            else pn
          if pn.hasTransId ("T" ++ String.singleton apos ++ targetId) then
            pn.addArc
              { from' := formatPNId "P" targetId "m",
                to' := "T" ++ String.singleton apos ++ targetId, type := .reset }
          else pn

/-- Step 5, `handleSigmaArcs`: Σ-edges sorted (single-character constraints
first, alphabetically; multi-character ones in input order), each processed
by `step5One`. -/
def handleSigmaArcs (rm : RModel) (pn : PNModel) : PNModel :=
  let allSigma := rm.edges.filter (fun e => !(e.C == "ϵ"))
  let singleCharArcs := allSigma.filter (fun e => e.C.length == 1)
  let multiCharArcs := allSigma.filter (fun e => !(e.C.length == 1))
  let sigmaArcs := sortSigmaByC singleCharArcs ++ multiCharArcs
  sigmaArcs.foldl (fun pn edge => step5One rm sigmaArcs pn edge) pn

/-- Step 6, `handleRBS`: consensus place and reset transition per RBS with
an out-bridge, plus the (deduplicated) arcs from the level-2 mirrors. -/
def handleRBS (rm : RModel) (pn : PNModel) : PNModel :=
  rm.rbsGroups.foldl (fun pn g =>
    let centerId := g.1
    let rbsNodeIds := g.2
    let hasOutBridge := rbsNodeIds.any (fun nid =>
      match rm.getNode? nid with
      | some n => n.isOutBridge
      | none => false)
    if hasOutBridge then
      let PconsId := "Pcons" ++ centerId
      let TrrId := "Trr" ++ centerId
      let pn := pn.addPlace
        { id := PconsId, label := "exited(RBS(" ++ centerId ++ "))",
          consensusPlace := true, tokens := 0 }
      let pn := pn.addTransition
        { id := TrrId, label := "reset(RBS(" ++ centerId ++ "))",
          resetTransition := true }
      let pn := pn.addArc { from' := PconsId, to' := TrrId, type := .normal }
      let pn := pn.addArc { from' := PconsId, to' := TrrId, type := .reset }
      rbsNodeIds.foldl (fun pn nid =>
        match rm.getNode? nid with
        | some n =>
            if n.isOutBridge then
              (rm.outgoing nid).foldl (fun pn e =>
                let TprimeId := "T" ++ String.singleton apos ++ e.from'
                if pn.arcs.any (fun a => a.from' == TprimeId &&
                    a.to' == PconsId && a.type == ArcType.normal) then pn
                else pn.addArc
                  { from' := TprimeId, to' := PconsId, type := .normal }) pn
            else pn
        | none => pn) pn
    else pn) pn

/-- Step 7, `handleBridgeArcs`: wire level-1 bridge nodes to their level-2
mirrors. -/
def handleBridgeArcs (rm : RModel) (pn : PNModel) : PNModel :=
  rm.nodes.foldl (fun pn v =>
    let pn := if v.isInBridge && v.rbsGroup == none then
        pn.addArc
          { from' := "P" ++ v.id ++ "m",
            to' := "T" ++ String.singleton apos ++ v.id, type := .normal }
      else pn
    if v.isOutBridge && v.rbsGroup == none then
      (pn.outgoingOf ("T" ++ v.id)).foldl (fun pn2 a =>
        pn2.addArc
          { from' := "T" ++ String.singleton apos ++ v.id,
            to' := a.to', type := .normal }) pn
    else pn) pn

/-- Step 8, `handleAuxiliaryPlaces`: reset wiring of every `auxiliary`
place — to `To`, to its RBS's `Trr` (with the weighted return arc), and to
its `resetTarget` unless that vertex loops or is the sink. -/
def handleAuxiliaryPlaces (rm : RModel) (pn : PNModel) : PNModel :=
  (pn.places.filter (·.auxiliary)).foldl (fun pn auxP =>
    let pn := if pn.hasTransId "To" then
        pn.addArc { from' := auxP.id, to' := "To", type := .reset }
      else pn
    let pn := match auxP.rbsGroup with
      | some g =>
          let pn := pn.addArc
            { from' := auxP.id, to' := "Trr" ++ g, type := .reset }
          pn.addArc
            { from' := "Trr" ++ g, to' := auxP.id, type := .normal,
              weight := some auxP.tokens }
      | none => pn
    let targetId := (stripApos (auxP.resetTarget.getD "")).drop 1
    if !(rm.hasLoopingArc targetId) && !(targetId == "o") then
      pn.addArc
        { from' := auxP.id, to' := auxP.resetTarget.getD "", type := .reset }
    else pn) pn

/-- Step 9, `handleSourceTransitions`: the global source place (one token)
feeding `Ti`, when the dummy source exists. -/
def handleSourceTransitions (rm : RModel) (pn : PNModel) : PNModel :=
  if rm.hasNode "i" then
    let pn := pn.addPlace
      { id := "Pim", label := "Source", globalSource := true, tokens := 1 }
    pn.addArc { from' := "Pim", to' := "Ti", type := .normal }
  else pn

/-! ### Claim C8 -/

/-- A vertex `x` whose only outgoing edge is the self-loop `x → x`. -/
def rmC8 : RModel :=
  { nodes := [{ id := "x" }],
    edges := [{ from' := "x", to' := "x" }] }

/-- C8, counterexample: the vertex `x` of `rmC8` has a looping arc, yet
`checkIfSplitCase1` returns the primitive `false` (here `none`) because the
`outgoingEdges.length < 2` guard fires before the has-loop condition is
consulted, and after mapper steps 1–2 no split place `Pxsplit` exists. -/
theorem C8_counterexample :
    rmC8.hasLoopingArc "x" = true ∧
    rmC8.checkIfSplitCase1 { id := "x" } = none ∧
    (handleSplitPlaces rmC8 (mapVertexToTransition rmC8 {})).2.hasPlaceId
      (formatPNId "P" "x" "split") = false := by decide

/-- C8, amended: `checkIfSplitCase1` never classifies a vertex with fewer
than two outgoing edges — in particular a vertex whose only outgoing edge
is a self-loop — regardless of its loop status; the has-loop limb is only
reachable at out-degree ≥ 2. -/
theorem C8_amended (m : RModel) (v : RNode)
    (h : (m.edges.filter (·.from' == v.id)).length < 2) :
    m.checkIfSplitCase1 v = none := by
  unfold RModel.checkIfSplitCase1
  rw [if_pos h]

/-- Witness for `C8_amended` at the self-loop model `rmC8`. -/
theorem C8_amended_witness :
    (rmC8.edges.filter (·.from' == ({ id := "x" } : RNode).id)).length < 2 ∧
    rmC8.checkIfSplitCase1 { id := "x" } = none :=
  ⟨by decide, C8_amended rmC8 { id := "x" } (by decide)⟩

/-- `mapToPetriNet(combinedRDLT)` (`mapper.js`): the nine steps in order on
a fresh `PNModel`; steps 3–5 consult the `splitPlace` flags step 2 wrote
into the RDLT model. -/
def mapToPetriNet (combinedRDLT : RModel) : PNModel :=
  let pn : PNModel := {}
  let pn := mapVertexToTransition combinedRDLT pn
  let st := handleSplitPlaces combinedRDLT pn
  let rm := st.1
  let pn := st.2
  let pn := handleIncomingArcs rm pn
  let pn := handleEpsilonArcs rm pn
  let pn := handleSigmaArcs rm pn
  let pn := handleRBS rm pn
  let pn := handleBridgeArcs rm pn
  let pn := handleAuxiliaryPlaces rm pn
  handleSourceTransitions rm pn

/-! ### Claim C4 -/

/-- An RDLT on which `formatPNId` names collide: the step-3 auxiliary place
of the vertex `qsplit` is `P` + `Jqsplit` = `PJqsplit`, which is also
`formatPNId("P", "Jq", "split")`, the name step 4 probes to decide whether
the abstract-arc source `Jq` owns a split place. -/
def rmC4 : RModel :=
  { nodes := [{ id := "u" }, { id := "Jq" }, { id := "w" }, { id := "qsplit" }],
    edges := [{ from' := "u", to' := "qsplit", C := "a", L := 1 },
              { from' := "Jq", to' := "w", C := "ϵ", L := 2,
                type := some "abstract", path := some "Jq->w" }] }

/-- C4: on `rmC4` the completed net still contains an `abstract` arc.  The
vertex `Jq` is not split (out-degree 1), so its raw abstract arc hangs off
`TJq` (rerouted to `Pwm` by step 3); but step 4 finds the unrelated place
`PJqsplit` truthy, takes the split branch, and deletes abstract arcs
emanating from `PJqsplit` — of which there are none — so the abstract arc
`TJq → Pwm` survives `handleSourceTransitions`. -/
theorem C4_abstract_arc_survives :
    ((mapToPetriNet rmC4).arcs.filter (fun a => a.type == ArcType.abstract)).map
        (fun a => (a.from', a.to')) = [("TJq", "Pwm")] := by decide

/-! ### Claim C9 -/

/-- An RDLT whose mapped net exhibits the reset-before-consume race: `z` is
a mix-join with ε inputs from `x1`, `x2` and a Σ input from `y` whose
constraint letter `z` makes the unconstrained place `Pzϵ` sort after `Pzm`,
so in the racing step the sorted-group order fires `Tz` (which resets the
auxiliary place `Pϵnzx2`) before `Tϵzx2` (which then subtracts from it). -/
def rmC9 : RModel :=
  { nodes := [{ id := "i" }, { id := "x1" }, { id := "x2" }, { id := "y" },
              { id := "z" }],
    edges := [{ from' := "i", to' := "x1" }, { from' := "i", to' := "x2" },
              { from' := "i", to' := "y" },
              { from' := "x1", to' := "z" }, { from' := "x2", to' := "z" },
              { from' := "y", to' := "z", C := "z" }] }

/-- The Petri net the mapper produces for `rmC9`. -/
def pnC9 : PNModel := mapToPetriNet rmC9

/-- C9: `pnC9` has a place `Pϵnzx2`, and the simulator (at its default
`maxSteps = 1000`) records a step whose marking gives that place a negative
token count.  In the branch that fires `Tϵzx1` at step 4, step 5 enables
both `Tz` (via `Pzm`) and `Tϵzx2` (via `Pϵzx2`, `Pzϵ`, `Pϵnzx2`); the
auxiliary place `Pϵnzx2` is excluded from conflict grouping, `Tz` fires
first and resets it to `0`, and `Tϵzx2` then subtracts `1`, recording
`-1`. -/
theorem C9_negative_marking :
    pnC9.hasPlaceId "Pϵnzx2" = true ∧
    ((simulateBehavior pnC9 1000).any (fun seq =>
      seq.any (fun st => decide (st.marking "Pϵnzx2" < 0)))) = true := by decide

/-! ## Expanded-reusability computation (`preprocessor.js`)

JS `Set` membership on edge *objects* is identity-based; every structure
below therefore represents an edge by its index into the owning model's
`edges` array, which is in bijection with object identity. -/

/-- `edgeKey(edge)`. -/
def edgeKey (e : REdge) : String :=
  e.from' ++ "->" ++ e.to' ++ "|C=" ++ e.C ++ "|L=" ++ toString e.L

/-- The RBS subgraph `B = (nodes, edgeSet)`; `edgeSet` holds indices into
the owning model's `edges`. -/
structure BSub where
  nodes : List String
  edgeSet : List Nat
deriving DecidableEq, Repr

/-- `buildRBSsubgraph(model, rbsNodeIds)`. -/
def buildRBSsubgraph (model : RModel) (rbsNodeIds : List String) : BSub :=
  let ns := rbsNodeIds.foldl (fun s id => setInsert id s) []
  { nodes := ns,
    edgeSet := (List.range model.edges.length).filter (fun i =>
      match model.edges.get? i with
      | some e => ns.contains e.from' && ns.contains e.to'
      | none => false) }

/-- `graph.get(v) || []` on the adjacency dictionary (vertex ↦ outgoing
edge indices). -/
def adjOf (graph : List (String × List Nat)) (v : String) : List Nat :=
  ((graph.find? (·.1 == v)).map (·.2)).getD []

/-- `graph.delete(start)`. -/
def graphDelete (graph : List (String × List Nat)) (v : String) :
    List (String × List Nat) :=
  graph.filter (fun p => !(p.1 == v))

/-- `blockMap.get(v)`. -/
def bmGet (bm : List (String × List String)) (v : String) :
    Option (List String) :=
  (bm.find? (·.1 == v)).map (·.2)

/-- `blockMap.set(v, ws)`. -/
def bmSet (v : String) (ws : List String) :
    List (String × List String) → List (String × List String)
  | [] => [(v, ws)]
  | q :: rest => if q.1 == v then (v, ws) :: rest else q :: bmSet v ws rest

/-- The mutable state threaded through Johnson's `circuit`: the `blocked`
set, the `blockMap`, and the global `cycles` accumulator (cycles are lists
of edge indices). -/
structure CState where
  blocked : List String
  bm : List (String × List String)
  cycles : List (List Nat)

/-- `unblock(v, blocked, blockMap)`; the fuel dominates the recursion depth
(each level removes one element of `blocked`). -/
def unblock : Nat → String → List String → List (String × List String) →
    List String × List (String × List String)
  | 0, v, blocked, bm => (blocked.filter (fun x => !(x == v)), bm)
  | fuel + 1, v, blocked, bm =>
      let blocked := blocked.filter (fun x => !(x == v))
      match bmGet bm v with
      | none => (blocked, bm)
      | some ws =>
          let st := ws.foldl
            (fun (st : List String × List (String × List String)) w =>
              if st.1.contains w then unblock fuel w st.1 st.2 else st)
            (blocked, bm)
          (st.1, bmSet v [] st.2)

/-- `circuit(v, start, blocked, blockMap, stackV, stackEdges)`; `stackV` is
dead in the source (only `stackEdges` records cycles) and is omitted.  The
fuel dominates the DFS depth: every recursive call blocks a previously
unblocked vertex and path vertices stay blocked until their call returns. -/
def circuit (model : RModel) (graph : List (String × List Nat)) (start : String) :
    Nat → String → List Nat → CState → Bool × CState
  | 0, _, _, st => (false, st)
  | fuel + 1, v, stackEdges, st =>
      let st := { st with blocked := setInsert v st.blocked }
      let r := (adjOf graph v).foldl (fun (r : Bool × CState) ei =>
        match model.edges.get? ei with
        | none => r
        | some edge =>
          let w := edge.to'
          if w == start then
            (true, { r.2 with cycles := r.2.cycles ++ [stackEdges ++ [ei]] })
          else if r.2.blocked.contains w then r
          else
            let st1 := { r.2 with blocked := setInsert w r.2.blocked }
            let r1 := circuit model graph start fuel w (stackEdges ++ [ei]) st1
            (r.1 || r1.1,
             { r1.2 with blocked := r1.2.blocked.filter (fun x => !(x == w)) }))
        (false, st)
      if r.1 then
        let ub := unblock (r.2.blocked.length + 1) v r.2.blocked r.2.bm
        (true, { blocked := ub.1, bm := ub.2, cycles := r.2.cycles })
      else
        let bm := (adjOf graph v).foldl (fun bm ei =>
          match model.edges.get? ei with
          | none => bm
          | some edge =>
              bmSet edge.to' (setInsert v ((bmGet bm edge.to').getD [])) bm)
          r.2.bm
        (false, { r.2 with bm := bm })

/-- `findAllSimpleCycles(model)` (Johnson's algorithm as written): the
adjacency maps each vertex to its outgoing edge indices; each vertex is
tried as `start` and then deleted from the adjacency. -/
def findAllSimpleCycles (model : RModel) : List (List Nat) :=
  let graph0 : List (String × List Nat) := model.nodes.map (fun n => (n.id, []))
  let graph0 := (List.range model.edges.length).foldl (fun g i =>
    match model.edges.get? i with
    | some e => g.map (fun p => if p.1 == e.from' then (p.1, p.2 ++ [i]) else p)
    | none => g) graph0
  ((model.nodes.map (·.id)).foldl
    (fun (st : List (String × List Nat) × List (List Nat)) start =>
      let r := circuit model st.1 start (model.nodes.length + 2) start []
        { blocked := [], bm := [], cycles := st.2 }
      (graphDelete st.1 start, r.2.cycles))
    (graph0, [])).2

/-- `computeRBSReusability(B)`: build the tiny sub-model, enumerate its
simple cycles, sum each cycle's minimum `L` into its edges, and cap at the
edge's own `L`.  The inner first-match lookup by `(from,to,C,L)` always
lands on an edge with the same `edgeKey`, so the sum is recorded directly
under the edge's key. -/
def computeRBSReusability (model : RModel) (B : BSub) : List (String × Int) :=
  let tmp : RModel := { nodes := B.nodes.map (fun id => { id := id }),
                        edges := B.edgeSet.filterMap (model.edges.get? ·) }
  let cycles := findAllSimpleCycles tmp
  let cycleMinL := cycles.map (fun cyc =>
    listMin (cyc.filterMap (fun i => (tmp.edges.get? i).map (·.L))))
  let ruSum := tmp.edges.foldl (fun m e => setIntMap (edgeKey e) 0 m) []
  let ruSum := (cycles.zip cycleMinL).foldl (fun m p =>
    p.1.foldl (fun m i =>
      match tmp.edges.get? i with
      | some e => setIntMap (edgeKey e) (((getIntMap m (edgeKey e)).getD 0) + p.2) m
      | none => m) m) ruSum
  tmp.edges.foldl (fun res e =>
    let ru := (getIntMap ruSum (edgeKey e)).getD 0
    setIntMap (edgeKey e) (if ru < e.L then ru else e.L) res) []

/-- One abstract arc path of the preprocessor. -/
structure APath where
  uPrime : String
  vPrime : String
  concretePath : List String
deriving DecidableEq, Repr

/-- The consecutive hops `(concretePath[i], concretePath[i+1])`. -/
def pathHops : List String → List (String × String)
  | a :: b :: rest => (a, b) :: pathHops (b :: rest)
  | _ => []

/-- `pathReusability(abstractArcPath, ruMap, B)`. -/
def pathReusability (model : RModel) (ap : APath)
    (ruMap : List (String × Int)) (B : BSub) : Int :=
  let reusabilities := (pathHops ap.concretePath).filterMap (fun uv =>
    match (B.edgeSet.filterMap (model.edges.get? ·)).find?
        (fun e => e.from' == uv.1 && e.to' == uv.2) with
    | none => none
    | some edgeObj => getIntMap ruMap (edgeKey edgeObj))
  match reusabilities with
  | [] => 0
  | x :: xs => xs.foldl min x

/-- `InBridges(model, rbsNodeIds)` as edge indices. -/
def InBridges (model : RModel) (rbsNodeIds : List String) : List Nat :=
  (List.range model.edges.length).filter (fun i =>
    match model.edges.get? i with
    | some e => !(rbsNodeIds.contains e.from') && rbsNodeIds.contains e.to'
    | none => false)

/-- `Cycles_part(R, B, allCycles)`: cycles with at least one edge inside
`B.edgeSet` and at least one outside. -/
def Cycles_part (B : BSub) (allCycles : List (List Nat)) : List (List Nat) :=
  allCycles.filter (fun cycle =>
    cycle.any (fun ei => B.edgeSet.contains ei) &&
    cycle.any (fun ei => !(B.edgeSet.contains ei)))

/-- `PCA_of_cycle(cycle, allRbsEdgeSets)`: among the cycle edges outside
every RBS, those of minimal `L`. -/
def PCA_of_cycle (model : RModel) (cycle : List Nat)
    (allRbsEdgeSets : List (List Nat)) : List Nat :=
  let globalRbs := allRbsEdgeSets.flatMap (fun s => s)
  let nonRbsArcs := cycle.filter (fun ei => !(globalRbs.contains ei))
  if nonRbsArcs.isEmpty then []
  else
    let minL := listMin (nonRbsArcs.filterMap (fun ei =>
      (model.edges.get? ei).map (·.L)))
    nonRbsArcs.filter (fun ei =>
      (((model.edges.get? ei).map (·.L)).getD 0) == minL)

/-- `hasExactEdge(cyc, e)`: value-level `(from,to,C,L)` match. -/
def hasExactEdge (model : RModel) (cyc : List Nat) (e : REdge) : Bool :=
  cyc.any (fun ei =>
    match model.edges.get? ei with
    | some x => x.from' == e.from' && x.to' == e.to' && x.C == e.C && x.L == e.L
    | none => false)

/-- `filterOverlappingPCAs(pcaPerCycleList)`: per `edgeKey`, keep the arc
with the smallest `L`, in first-insertion order. -/
def filterOverlappingPCAs (model : RModel) (pcas : List (List Nat)) : List Nat :=
  (pcas.foldl (fun (arcMap : List (String × Nat)) cyclePCAs =>
    cyclePCAs.foldl (fun arcMap ei =>
      match model.edges.get? ei with
      | none => arcMap
      | some arc =>
        let key := edgeKey arc
        match (arcMap.find? (·.1 == key)).map (·.2) with
        | none => arcMap ++ [(key, ei)]
        | some ej =>
            let existingL := (((model.edges.get? ej).map (·.L)).getD 0)
            if arc.L < existingL then
              arcMap.map (fun q => if q.1 == key then (key, ei) else q)
            else arcMap) arcMap) []).map (·.2)

/-- The candidate PCA sets `computeLuv` collects: qualifying crossing
cycles (containing the in-bridge and touching the concrete path) with a
non-empty PCA. -/
def luvCandidates (R : RModel) (B : BSub) (inBridge : REdge)
    (abstractPath : APath) (allRbsEdgeSets : List (List Nat)) : List (List Nat) :=
  (Cycles_part B (findAllSimpleCycles R)).filterMap (fun cyc =>
    if !(hasExactEdge R cyc inBridge) then none
    else
      let pathOk := (pathHops abstractPath.concretePath).any (fun uv =>
        cyc.any (fun ei =>
          match R.edges.get? ei with
          | some x => x.from' == uv.1 && x.to' == uv.2
          | none => false))
      if !pathOk then none
      else
        let pcaSet := PCA_of_cycle R cyc allRbsEdgeSets
        if pcaSet.isEmpty then none else some pcaSet)

/-- `computeLuv(R, B, inBridge, abstractPath, allRbsEdgeSets)`: `1` when no
cycle qualifies, else the minimum of the in-bridge's `L` and the smallest
`L` among the distinct PCA arcs. -/
def computeLuv (R : RModel) (B : BSub) (inBridge : REdge)
    (abstractPath : APath) (allRbsEdgeSets : List (List Nat)) : Int :=
  let candidates := luvCandidates R B inBridge abstractPath allRbsEdgeSets
  if candidates.isEmpty then 1
  else
    let distinctPCAs := filterOverlappingPCAs R candidates
    let minDistinctPCA := listMin (distinctPCAs.filterMap (fun ei =>
      (R.edges.get? ei).map (·.L)))
    min inBridge.L minDistinctPCA

/-- `computeExpandedReusability(model, RBSmap, abstractArcPath, centerId)`. -/
def computeExpandedReusability (model : RModel)
    (RBSmap : List (String × List String)) (abstractArcPath : APath)
    (centerId : String) : Int :=
  let centers := (model.nodes.filter (fun n => n.M == 1)).map (·.id)
  let Bs : List (String × BSub) := centers.map (fun c =>
    (c, buildRBSsubgraph model (((RBSmap.find? (·.1 == c)).map (·.2)).getD [])))
  let RU_Bs : List (String × List (String × Int)) := Bs.map (fun p =>
    (p.1, computeRBSReusability model p.2))
  let allRbsEdgeSets := centers.map (fun c =>
    ((((Bs.find? (fun p => p.1 == c)).map (fun p => p.2)).getD
      ({ nodes := [], edgeSet := [] } : BSub)).edgeSet))
  let Bc : BSub := ((Bs.find? (·.1 == centerId)).map (·.2)).getD
    { nodes := [], edgeSet := [] }
  let RUc := ((RU_Bs.find? (·.1 == centerId)).map (·.2)).getD []
  (InBridges model (((RBSmap.find? (·.1 == centerId)).map (·.2)).getD [])).foldl
    (fun eRU ibIdx =>
      match model.edges.get? ibIdx with
      | none => eRU
      | some inBridge =>
        let luv := computeLuv model Bc inBridge abstractArcPath allRbsEdgeSets
        let pathRU := pathReusability model abstractArcPath RUc Bc
        eRU + luv * (pathRU + 1)) 0

/-! ### Claim C6 -/

/-- An RDLT with an RBS (center `x`, members `x, y`), an in-bridge
`u → x`, an out-edge `y → z`, and no cycle whatsoever — so no simple cycle
crossing the RBS boundary carries a pseudocritical arc. -/
def rmC6 : RModel :=
  { nodes := [{ id := "u" }, { id := "x", M := 1, center := true },
              { id := "y" }, { id := "z" }],
    edges := [{ from' := "u", to' := "x", C := "a" },
              { from' := "x", to' := "y" },
              { from' := "y", to' := "z", C := "b" }] }

/-- The abstract path `x ⇒ y` over the concrete path `[x, y]`. -/
def apC6 : APath := { uPrime := "x", vPrime := "y", concretePath := ["x", "y"] }

/-- The RBS subgraph of `rmC6`'s center `x`. -/
def BC6 : BSub := buildRBSsubgraph rmC6 ["x", "y"]

/-- The in-bridge edge `u → x` of `rmC6` (value-identical to edge 0). -/
def ibC6 : REdge := { from' := "u", to' := "x", C := "a" }

/-- C6, counterexample: `rmC6` has no simple cycle at all, so in particular
no cycle crossing the RBS boundary has a pseudocritical arc; the spec
promises eRU = ∞ plus an `UnboundedReuse` warning, but the code computes
the finite value `1` (from `computeLuv`'s `candidates.length === 0`
default) and has no warning channel. -/
theorem C6_counterexample :
    findAllSimpleCycles rmC6 = [] ∧
    computeExpandedReusability rmC6 [("x", ["x", "y"])] apC6 "x" = 1 := by
  decide

/-- C6, amended: whenever no simple cycle of `R` crossing the boundary of
`B` has a pseudocritical arc, `computeLuv` returns the finite default `1`
(it does not return infinity, and nothing is appended to any warning
list). -/
theorem C6_amended (R : RModel) (B : BSub) (inBridge : REdge) (ap : APath)
    (sets : List (List Nat))
    (h : ∀ cyc ∈ Cycles_part B (findAllSimpleCycles R),
      PCA_of_cycle R cyc sets = []) :
    computeLuv R B inBridge ap sets = 1 := by
  have hc : luvCandidates R B inBridge ap sets = [] := by
    unfold luvCandidates
    rw [List.filterMap_eq_nil_iff]
    intro cyc hcyc
    simp only [h cyc hcyc, List.isEmpty_nil]
    cases h1 : hasExactEdge R cyc inBridge <;> simp [h1]
  simp only [computeLuv, hc, List.isEmpty_nil, if_true]

/-- Witness for `C6_amended` at the acyclic model `rmC6`. -/
theorem C6_amended_witness :
    (∀ cyc ∈ Cycles_part BC6 (findAllSimpleCycles rmC6),
      PCA_of_cycle rmC6 cyc [BC6.edgeSet] = []) ∧
    computeLuv rmC6 BC6 ibC6 apC6 [BC6.edgeSet] = 1 :=
  ⟨by decide, C6_amended rmC6 BC6 ibC6 apC6 [BC6.edgeSet] (by decide)⟩

/-! ## Parser and conversion facade (`parser.js`, `conversionFacade.js`)

Exceptions are modelled with `Except String`; `convert`'s unembedded
steps 2–5 (model construction, preprocessing, mapping, analyses) appear as
an opaque continuation argument, so every statement below holds whatever
those steps do.  The modelled inputs are non-string JS values whose
`vertices`/`edges` fields are absent-or-arrays, whose ids and `C`s are
strings or absent, and whose `L`s and `M`s are integers or absent — the
paths that need a non-string value of those fields are not exercised. -/

/-- A raw (pre-validation) vertex: `none` fields model `undefined`. -/
structure RawVertex where
  id : Option String := none
  type : Option String := none
  label : String := ""
  M : Int := 0
deriving DecidableEq, Repr

/-- A raw (pre-validation) edge. -/
structure RawEdge where
  from' : Option String := none
  to' : Option String := none
  C : Option String := none
  L : Option Int := none
deriving DecidableEq, Repr

/-- A non-string JS value handed to `parseRDLT`: either falsy (`!raw`
fires) or an object whose `vertices`/`edges` are arrays (`some`) or not
(`none`); array entries may themselves be nullish (`v || {}`). -/
inductive JsRaw
  | nullish
  | obj (vertices : Option (List (Option RawVertex)))
        (edges : Option (List (Option RawEdge)))
deriving DecidableEq, Repr

/-- A validated vertex as stored in the parser's `vertices` dictionary. -/
structure PVertex where
  id : String
  type : String
  label : String
  M : Int
deriving DecidableEq, Repr

/-- The parser's mutable state: the vertex dictionary, the `incoming` and
`outgoing` adjacency maps (entries `(otherEndpoint, C, L)`), and the
warnings list. -/
structure PState where
  vertices : List (String × PVertex) := []
  incoming : List (String × List (String × String × Int)) := []
  outgoing : List (String × List (String × String × Int)) := []
  warnings : List String := []
deriving Repr

/-- `adj[k].push(v)`. -/
def adjPushP (k : String) (v : String × String × Int) :
    List (String × List (String × String × Int)) →
    List (String × List (String × String × Int)) :=
  List.map (fun p => if p.1 == k then (p.1, p.2 ++ [v]) else p)

/-- The body of the vertex `forEach` of `parseRDLT`. -/
def processVertex (st : PState) (v : Option RawVertex) : Except String PState :=
  let vv := v.getD {}
  match vv.id with
  | none => .error "Each vertex needs a non-empty string id."
  | some id =>
    if id == "" then .error "Each vertex needs a non-empty string id."
    else if (st.vertices.find? (·.1 == id)).isSome then
      .error ("Duplicate vertex id \"" ++ id ++ "\".")
    else
      let rawT := vv.type.getD "undefined"
      let t := strToLower rawT
      if !(["b", "e", "c"].contains t) then
        .error ("Vertex \"" ++ id ++ "\" has invalid type \"" ++ rawT ++
          "\". Allowed: \"b\", \"e\", \"c\".")
      else if vv.M == 1 && t == "c" then
        .error ("Vertex \"" ++ id ++
          "\" is a controller (type \"c\") but also marked M=1. Only \"b\" or \"e\" vertices may act as RBS centres.")
      else
        let warnings :=
          if !(vv.M == 0) && !(vv.M == 1) then
            st.warnings ++ ["Vertex \"" ++ id ++ "\" has non-boolean M value \"" ++
              toString vv.M ++ "\". Accepted values: 0 or 1."]
          else st.warnings
        .ok { st with
          vertices := st.vertices ++
            [(id, { id := id, type := t, label := vv.label, M := vv.M })],
          incoming := st.incoming ++ [(id, [])],
          outgoing := st.outgoing ++ [(id, [])],
          warnings := warnings }

/-- The body of the edge `forEach` of `parseRDLT` (an absent endpoint both
renders and key-coerces to `"undefined"`, as in JS). -/
def processEdge (st : PState) (idx : Nat) (e : Option RawEdge) :
    Except String PState :=
  let ee := e.getD {}
  let fromS := ee.from'.getD "undefined"
  let toS := ee.to'.getD "undefined"
  let C := ee.C.getD "ϵ"
  let L := ee.L.getD 1
  let ctx := "Edge #" ++ toString idx ++ " (" ++ fromS ++ " -> " ++ toS ++ ")"
  match st.vertices.find? (·.1 == fromS) with
  | none => .error (ctx ++ ": \"from\" vertex missing.")
  | some pf =>
    match st.vertices.find? (·.1 == toS) with
    | none => .error (ctx ++ ": \"to\" vertex missing.")
    | some pt =>
      if ["b", "e"].contains pf.2.type && ["b", "e"].contains pt.2.type then
        .error (ctx ++ ": arcs between two objects (types b/e) are forbidden.")
      else
        let warnings :=
          if fromS == toS then
            st.warnings ++
              [ctx ++ ": self-loops are unusual - make sure this is intended."]
          else st.warnings
        if L < 1 then .error (ctx ++ ": L must be a positive integer.")
        else
          .ok { st with
            warnings := warnings,
            outgoing := adjPushP fromS (toS, C, L) st.outgoing,
            incoming := adjPushP toS (fromS, C, L) st.incoming }

/-- The parser's successful result `{ rdltJSON, warnings }`. -/
structure Parsed where
  rdltJSON : JsRaw
  warnings : List String
deriving Repr

/-- Thread an `Except` through a list (the `forEach` loops, which abort by
throwing). -/
def foldExcept {σ α : Type} (f : σ → α → Except String σ) :
    σ → List α → Except String σ
  | st, [] => .ok st
  | st, a :: rest =>
      match f st a with
      | .error e => .error e
      | .ok st' => foldExcept f st' rest

/-- `parseRDLT(input, extend)` for non-string inputs (strings would first
go through `JSON.parse`). -/
def parseRDLT (input : JsRaw) (extend : Bool := true) : Except String Parsed :=
  match input with
  | .nullish =>
      .error ("RDLT must have the shape \x7b vertices:[...], edges:[...] \x7d - arrays are required.")
  | .obj vs? es? =>
    match vs?, es? with
    | some vs, some es =>
      match foldExcept processVertex {} vs with
      | .error e => .error e
      | .ok st =>
        match foldExcept (fun st (p : Nat × Option RawEdge) =>
            processEdge st p.1 p.2) st es.enum with
        | .error e => .error e
        | .ok st =>
          let sourceNodes := (st.vertices.map (·.1)).filter (fun id =>
            (((st.incoming.find? (·.1 == id)).map (·.2)).getD []).isEmpty)
          let sinkNodes := (st.vertices.map (·.1)).filter (fun id =>
            (((st.outgoing.find? (·.1 == id)).map (·.2)).getD []).isEmpty)
          if extend && sourceNodes.isEmpty then
            .error "No valid source node found. Please ensure at least one source node exists."
          else if extend && sinkNodes.isEmpty then
            .error "No valid sink node found. Please ensure at least one sink node exists."
          else
            let warnings := st.vertices.foldl (fun ws p =>
              if p.2.M == 1 then
                let owns := (((st.outgoing.find? (·.1 == p.1)).map (·.2)).getD
                    []).filter (fun a =>
                  a.2.1 == "ϵ" &&
                  (((st.vertices.find? (·.1 == a.1)).map (·.2.type)).getD
                    "") == "c")
                if owns.isEmpty then
                  ws ++ ["Centre \"" ++ p.1 ++
                    "\" (M=1) does not own any controller (no ε-label arc)."]
                else ws
              else ws) st.warnings
            .ok { rdltJSON := input, warnings := warnings }
    | _, _ =>
      .error ("RDLT must have the shape \x7b vertices:[...], edges:[...] \x7d - arrays are required.")

/-- The observable outcome of `convert`: the `{ data, warnings }` object,
the `{ error, warnings }` object built by the catch block, or an exception
escaping `convert` itself. -/
inductive ConvertResult (α : Type)
  | ok (data : α) (warnings : List String)
  | errObj (error : String) (warnings : List String)
  | uncaught (msg : String)
deriving DecidableEq, Repr

/-- The `TypeError` message produced by reading `.warnings` off the
still-undefined `parsedRDLT` inside the catch block. -/
def undefinedWarningsMsg : String :=
  "Cannot read properties of undefined (reading " ++ String.singleton apos ++
    "warnings" ++ String.singleton apos ++ ")"

/-- `convert(rdltInput, extend)` (`conversionFacade.js`): steps 2–5 are the
continuation `rest`.  When `parseRDLT` itself throws, `parsedRDLT` was
never assigned, so the catch block's `parsedRDLT.warnings` raises a
`TypeError` that escapes `convert`; when a later step throws, the catch
returns the `{ error, warnings }` object. -/
def convert {α : Type} (rest : Parsed → Except String α) (rdltInput : JsRaw)
    (extend : Bool := true) : ConvertResult α :=
  match parseRDLT rdltInput extend with
  | .error _ => .uncaught undefinedWarningsMsg
  | .ok parsedRDLT =>
    match rest parsedRDLT with
    | .ok payload => .ok payload parsedRDLT.warnings
    | .error e => .errObj e parsedRDLT.warnings

/-! ### Claim C5 -/

/-- C5: on the input `\x7b\x7d` (an object with neither a `vertices` nor an
`edges` array) `parseRDLT` throws its shape error, and `convert` — for
every behaviour of the remaining pipeline steps — does not return an
`\x7b error, warnings \x7d` object: the catch block itself crashes reading
`parsedRDLT.warnings` and the `TypeError` escapes the API boundary. -/
theorem C5_uncaught_exception (α : Type) (rest : Parsed → Except String α) :
    parseRDLT (JsRaw.obj none none) true =
      Except.error
        "RDLT must have the shape \x7b vertices:[...], edges:[...] \x7d - arrays are required." ∧
    convert rest (JsRaw.obj none none) true =
      ConvertResult.uncaught undefinedWarningsMsg :=
  ⟨rfl, rfl⟩

end RDLT2PN
